import Mathlib

/-!
Verification of the lookyswappy-api synchronization engine
(`app/services/sync_service.py` together with the models in `app/models/`
and the wire schemas in `app/schemas/sync.py`).

The relational store is shallowly embedded as lists of records plus a
fresh-id counter; server identities (UUIDs in the source) are `Nat`,
timestamps (`datetime` / float Unix timestamps) are `Nat`, and the
server clock is passed explicitly as a `now` parameter.  SQLAlchemy's
`scalar_one_or_none` (which raises `MultipleResultsFound` on more than
one row) is embedded as an `Except String` computation, so the push
path is `Except`-monadic and `push` models commit/rollback by returning
either the new store or the untouched input store.  Primary-key lookups
(`one_or_none` on `id`, which is unique by the store's primary-key
guarantee) are embedded as `List.find?`.
-/

namespace Lookyswappy

/-- Server-side `Game` row (`app/models/game.py` on `SyncableBase`). -/
structure Game where
  id : Nat
  client_id : Option String
  is_deleted : Bool
  last_modified : Nat
  created_at : Nat
  device_id : String
  name : Option String
  target_score : Int
  status : String
  winner_id : Option Nat
  started_at : Nat
  ended_at : Option Nat
deriving DecidableEq, Repr

/-- Server-side `GamePlayer` row (`app/models/player.py`). -/
structure GamePlayer where
  id : Nat
  client_id : Option String
  is_deleted : Bool
  last_modified : Nat
  created_at : Nat
  game_id : Nat
  name : String
  position : Int
  current_total : Int
deriving DecidableEq, Repr

/-- Server-side `Round` row (`app/models/round.py`). -/
structure Round where
  id : Nat
  client_id : Option String
  is_deleted : Bool
  last_modified : Nat
  created_at : Nat
  game_id : Nat
  round_number : Int
  caller_id : Option Nat
deriving DecidableEq, Repr

/-- Server-side `Score` row (`app/models/score.py`). -/
structure Score where
  id : Nat
  client_id : Option String
  is_deleted : Bool
  last_modified : Nat
  created_at : Nat
  round_id : Nat
  player_id : Nat
  raw_score : Int
  bonus_applied : Int
  final_score : Int
  total_after : Int
deriving DecidableEq, Repr

/-- The relational store: the four syncable tables plus a fresh
server-identity supply (embedding `uuid.uuid4` defaults). -/
structure Store where
  games : List Game
  players : List GamePlayer
  rounds : List Round
  scores : List Score
  nextId : Nat
deriving DecidableEq, Repr

/-- `GameSync` wire record (`app/schemas/sync.py`). -/
structure GameSync where
  id : String
  name : Option String
  target_score : Int
  status : String
  winner_id : Option String
  started_at : Nat
  ended_at : Option Nat
deriving DecidableEq, Repr

/-- `GamePlayerSync` wire record. -/
structure GamePlayerSync where
  id : String
  game_id : String
  name : String
  position : Int
  current_total : Int
deriving DecidableEq, Repr

/-- `RoundSync` wire record. -/
structure RoundSync where
  id : String
  game_id : String
  round_number : Int
  caller_id : Option String
  created_at : Nat
deriving DecidableEq, Repr

/-- `ScoreSync` wire record. -/
structure ScoreSync where
  id : String
  round_id : String
  player_id : String
  raw_score : Int
  bonus_applied : Int
  final_score : Int
  total_after : Int
deriving DecidableEq, Repr

/-- `GameTableChanges`: created/updated/deleted buckets for games. -/
structure GameTableChanges where
  created : List GameSync := []
  updated : List GameSync := []
  deleted : List String := []
deriving DecidableEq, Repr

/-- `PlayerTableChanges`. -/
structure PlayerTableChanges where
  created : List GamePlayerSync := []
  updated : List GamePlayerSync := []
  deleted : List String := []
deriving DecidableEq, Repr

/-- `RoundTableChanges`. -/
structure RoundTableChanges where
  created : List RoundSync := []
  updated : List RoundSync := []
  deleted : List String := []
deriving DecidableEq, Repr

/-- `ScoreTableChanges`. -/
structure ScoreTableChanges where
  created : List ScoreSync := []
  updated : List ScoreSync := []
  deleted : List String := []
deriving DecidableEq, Repr

/-- `SyncChanges`: all changes across the four tables. -/
structure SyncChanges where
  games : GameTableChanges := {}
  game_players : PlayerTableChanges := {}
  rounds : RoundTableChanges := {}
  scores : ScoreTableChanges := {}
deriving DecidableEq, Repr

/-- The store with no rows (fresh database). -/
def emptyStore : Store := { games := [], players := [], rounds := [], scores := [], nextId := 0 }

/-- `record.client_id or str(record.id)`: the public identity of a row.
Python `or` treats the empty string as falsy, hence the explicit check. -/
def syncIdOf (client_id : Option String) (id : Nat) : String :=
  match client_id with
  | some c => if c = "" then toString id else c
  | none => toString id

/-- `SyncService._get_client_id_for_game`: public identity of a game by
server id (primary-key `one_or_none` embedded as `find?`). -/
def getClientIdForGame (st : Store) (server_id : Nat) : String :=
  match st.games.find? (fun g => g.id == server_id) with
  | some g => syncIdOf g.client_id g.id
  | none => toString server_id

/-- `SyncService._get_client_id_for_player`. -/
def getClientIdForPlayer (st : Store) (server_id : Nat) : String :=
  match st.players.find? (fun p => p.id == server_id) with
  | some p => syncIdOf p.client_id p.id
  | none => toString server_id

/-- `SyncService._get_client_id_for_round`. -/
def getClientIdForRound (st : Store) (server_id : Nat) : String :=
  match st.rounds.find? (fun r => r.id == server_id) with
  | some r => syncIdOf r.client_id r.id
  | none => toString server_id

/-- The `GameSync` payload `_pull_games` builds for one row. -/
def gameSyncOfRecord (g : Game) : GameSync :=
  { id := syncIdOf g.client_id g.id
    name := g.name
    target_score := g.target_score
    status := g.status
    winner_id := g.winner_id.map toString
    started_at := g.started_at
    ended_at := g.ended_at }

/-- The `GamePlayerSync` payload `_pull_players` builds for one row. -/
def playerSyncOfRecord (st : Store) (p : GamePlayer) : GamePlayerSync :=
  { id := syncIdOf p.client_id p.id
    game_id := getClientIdForGame st p.game_id
    name := p.name
    position := p.position
    current_total := p.current_total }

/-- The `RoundSync` payload `_pull_rounds` builds for one row. -/
def roundSyncOfRecord (st : Store) (r : Round) : RoundSync :=
  { id := syncIdOf r.client_id r.id
    game_id := getClientIdForGame st r.game_id
    round_number := r.round_number
    caller_id := r.caller_id.map (getClientIdForRawPlayer st)
    created_at := r.created_at }
where
  getClientIdForRawPlayer (st : Store) (sid : Nat) : String := getClientIdForPlayer st sid

/-- The `ScoreSync` payload `_pull_scores` builds for one row. -/
def scoreSyncOfRecord (st : Store) (s : Score) : ScoreSync :=
  { id := syncIdOf s.client_id s.id
    round_id := getClientIdForRound st s.round_id
    player_id := getClientIdForPlayer st s.player_id
    raw_score := s.raw_score
    bonus_applied := s.bonus_applied
    final_score := s.final_score
    total_after := s.total_after }

/-- The per-record classification loop of `_pull_games`
(`if record.is_deleted / elif record.client_id is None / else`). -/
def classifyGameRecords : List Game → GameTableChanges
  | [] => {}
  | r :: rs =>
    let rest := classifyGameRecords rs
    if r.is_deleted then { rest with deleted := syncIdOf r.client_id r.id :: rest.deleted }
    else if r.client_id = none then { rest with created := gameSyncOfRecord r :: rest.created }
    else { rest with updated := gameSyncOfRecord r :: rest.updated }

/-- The per-record classification loop of `_pull_players`. -/
def classifyPlayerRecords (st : Store) : List GamePlayer → PlayerTableChanges
  | [] => {}
  | r :: rs =>
    let rest := classifyPlayerRecords st rs
    if r.is_deleted then { rest with deleted := syncIdOf r.client_id r.id :: rest.deleted }
    else if r.client_id = none then { rest with created := playerSyncOfRecord st r :: rest.created }
    else { rest with updated := playerSyncOfRecord st r :: rest.updated }

/-- The per-record classification loop of `_pull_rounds`. -/
def classifyRoundRecords (st : Store) : List Round → RoundTableChanges
  | [] => {}
  | r :: rs =>
    let rest := classifyRoundRecords st rs
    if r.is_deleted then { rest with deleted := syncIdOf r.client_id r.id :: rest.deleted }
    else if r.client_id = none then { rest with created := roundSyncOfRecord st r :: rest.created }
    else { rest with updated := roundSyncOfRecord st r :: rest.updated }

/-- The per-record classification loop of `_pull_scores`. -/
def classifyScoreRecords (st : Store) : List Score → ScoreTableChanges
  | [] => {}
  | r :: rs =>
    let rest := classifyScoreRecords st rs
    if r.is_deleted then { rest with deleted := syncIdOf r.client_id r.id :: rest.deleted }
    else if r.client_id = none then { rest with created := scoreSyncOfRecord st r :: rest.created }
    else { rest with updated := scoreSyncOfRecord st r :: rest.updated }

/-- The row set of `_pull_games`: games of this device modified after `since`. -/
def gameQuery (st : Store) (device_id : String) (since : Nat) : List Game :=
  st.games.filter (fun g => g.device_id == device_id && decide (since < g.last_modified))

/-- The row set of `_pull_players` (after the empty-scope early return). -/
def playerQuery (st : Store) (since : Nat) (game_ids : List Nat) : List GamePlayer :=
  st.players.filter (fun p => game_ids.contains p.game_id && decide (since < p.last_modified))

/-- The row set of `_pull_rounds`. -/
def roundQuery (st : Store) (since : Nat) (game_ids : List Nat) : List Round :=
  st.rounds.filter (fun r => game_ids.contains r.game_id && decide (since < r.last_modified))

/-- The row set of `_pull_scores`. -/
def scoreQuery (st : Store) (since : Nat) (round_ids : List Nat) : List Score :=
  st.scores.filter (fun s => round_ids.contains s.round_id && decide (since < s.last_modified))

/-- `SyncService._pull_games`. -/
def pullGames (st : Store) (device_id : String) (since : Nat) : GameTableChanges :=
  classifyGameRecords (gameQuery st device_id since)

/-- `SyncService._pull_players`: early return on empty scope, else classify. -/
def pullPlayers (st : Store) (since : Nat) (game_ids : List Nat) : PlayerTableChanges :=
  if game_ids.isEmpty then {}
  else classifyPlayerRecords st (playerQuery st since game_ids)

/-- `SyncService._pull_rounds`. -/
def pullRounds (st : Store) (since : Nat) (game_ids : List Nat) : RoundTableChanges :=
  if game_ids.isEmpty then {}
  else classifyRoundRecords st (roundQuery st since game_ids)

/-- `SyncService._pull_scores`. -/
def pullScores (st : Store) (since : Nat) (round_ids : List Nat) : ScoreTableChanges :=
  if round_ids.isEmpty then {}
  else classifyScoreRecords st (scoreQuery st since round_ids)

/-- `SyncService._get_device_game_ids`: non-deleted games of the device. -/
def getDeviceGameIds (st : Store) (device_id : String) : List Nat :=
  (st.games.filter (fun g => g.device_id == device_id && !g.is_deleted)).map (fun g => g.id)

/-- `SyncService._get_round_ids`: non-deleted rounds of the given games. -/
def getRoundIds (st : Store) (game_ids : List Nat) : List Nat :=
  if game_ids.isEmpty then []
  else (st.rounds.filter (fun r => game_ids.contains r.game_id && !r.is_deleted)).map (fun r => r.id)

/-- `pull`'s watermark conversion: positive timestamps pass through,
`last_pulled_at <= 0` becomes `datetime.min`, embedded as `0`. -/
def sinceOf (last_pulled_at : Nat) : Nat :=
  if 0 < last_pulled_at then last_pulled_at else 0

/-- `SyncService.pull`.  `now` is the server time captured at the start
of the call; the returned watermark is `now` unconditionally. -/
def pull (st : Store) (device_id : String) (last_pulled_at : Nat) (now : Nat) :
    SyncChanges × Nat :=
  let since := sinceOf last_pulled_at
  let game_ids := getDeviceGameIds st device_id
  ({ games := pullGames st device_id since
     game_players := pullPlayers st since game_ids
     rounds := pullRounds st since game_ids
     scores := pullScores st since (getRoundIds st game_ids) }, now)

/-- SQLAlchemy `scalar_one_or_none`: `none` on no row, the row when
unique, and the `MultipleResultsFound` error on two or more rows. -/
def scalarOneOrNone {α : Type} : List α → Except String (Option α)
  | [] => Except.ok none
  | [a] => Except.ok (some a)
  | _ => Except.error "Multiple rows were found when exactly one or none was required"

/-- `SyncService._check_conflicts`: any game of the device modified
strictly after `last_pulled_at` (query with `limit(1)`, so only
emptiness of the row set matters). -/
def checkConflicts (st : Store) (device_id : String) (last_pulled_at : Nat) : Bool :=
  !(st.games.filter
      (fun g => g.device_id == device_id && decide (last_pulled_at < g.last_modified))).isEmpty

/-- `SyncService._get_game_by_client_id`. -/
def getGameByClientId (st : Store) (client_id : String) : Except String (Option Game) :=
  scalarOneOrNone (st.games.filter (fun g => g.client_id == some client_id))

/-- `SyncService._get_player_by_client_id`. -/
def getPlayerByClientId (st : Store) (client_id : String) : Except String (Option GamePlayer) :=
  scalarOneOrNone (st.players.filter (fun p => p.client_id == some client_id))

/-- `SyncService._get_round_by_client_id`. -/
def getRoundByClientId (st : Store) (client_id : String) : Except String (Option Round) :=
  scalarOneOrNone (st.rounds.filter (fun r => r.client_id == some client_id))

/-- One `created` iteration of `_apply_game_changes`: a new `Game` row
with the supplied client identity, the calling device as owner, a fresh
server id and server-stamped timestamps; `winner_id` and `ended_at` are
not supplied and default to null. -/
def insertGame (device_id : String) (now : Nat) (d : GameSync) (st : Store) : Store :=
  { st with
    games := st.games ++
      [{ id := st.nextId
         client_id := some d.id
         is_deleted := false
         last_modified := now
         created_at := now
         device_id := device_id
         name := d.name
         target_score := d.target_score
         status := d.status
         winner_id := none
         started_at := d.started_at
         ended_at := none }]
    nextId := st.nextId + 1 }

/-- The field overwrite of one `updated` iteration of
`_apply_game_changes`.  The store's flush emits an UPDATE (and so fires
the `onupdate` refresh of `last_modified`) only when some assigned value
differs from the stored value; a same-value re-assignment is a no-op. -/
def updateGameFields (d : GameSync) (now : Nat) (g : Game) : Game :=
  if g.name = d.name ∧ g.target_score = d.target_score ∧ g.status = d.status
      ∧ g.ended_at = d.ended_at then g
  else
    { g with
      name := d.name
      target_score := d.target_score
      status := d.status
      ended_at := d.ended_at
      last_modified := now }

/-- One `updated` iteration of `_apply_game_changes`: resolve by client
identity; absent means silently skip; found means overwrite in place. -/
def applyGameUpdate (now : Nat) (d : GameSync) (st : Store) : Except String Store := do
  let game? ← scalarOneOrNone (st.games.filter (fun g => g.client_id == some d.id))
  match game? with
  | none => Except.ok st
  | some _ =>
    Except.ok { st with
      games := st.games.map
        (fun g => if g.client_id == some d.id then updateGameFields d now g else g) }

/-- The soft-delete overwrite (`game.is_deleted = True`; the flush
emits an UPDATE with the `onupdate` refresh only when the flag actually
changes). -/
def softDeleteGame (now : Nat) (g : Game) : Game :=
  if g.is_deleted = true then g
  else { g with is_deleted := true, last_modified := now }

/-- One `deleted` iteration of `_apply_game_changes`. -/
def applyGameDelete (now : Nat) (client_id : String) (st : Store) : Except String Store := do
  let game? ← scalarOneOrNone (st.games.filter (fun g => g.client_id == some client_id))
  match game? with
  | none => Except.ok st
  | some _ =>
    Except.ok { st with
      games := st.games.map
        (fun g => if g.client_id == some client_id then softDeleteGame now g else g) }

/-- `SyncService._apply_game_changes`: created, then updated, then
deleted, each in list order. -/
def applyGameChanges (device_id : String) (now : Nat) (ch : GameTableChanges)
    (st : Store) : Except String Store := do
  let st1 := ch.created.foldl (fun s d => insertGame device_id now d s) st
  let st2 ← ch.updated.foldlM (fun s d => applyGameUpdate now d s) st1
  ch.deleted.foldlM (fun s c => applyGameDelete now c s) st2

/-- One `created` iteration of `_apply_player_changes`: resolve the
parent game by client identity; unresolvable means skip the record. -/
def applyPlayerCreate (now : Nat) (d : GamePlayerSync) (st : Store) : Except String Store := do
  let game? ← getGameByClientId st d.game_id
  match game? with
  | none => Except.ok st
  | some game =>
    Except.ok { st with
      players := st.players ++
        [{ id := st.nextId
           client_id := some d.id
           is_deleted := false
           last_modified := now
           created_at := now
           game_id := game.id
           name := d.name
           position := d.position
           current_total := d.current_total }]
      nextId := st.nextId + 1 }

/-- The field overwrite of one `updated` iteration of
`_apply_player_changes` (UPDATE and `onupdate` only on a net change). -/
def updatePlayerFields (d : GamePlayerSync) (now : Nat) (p : GamePlayer) : GamePlayer :=
  if p.name = d.name ∧ p.position = d.position ∧ p.current_total = d.current_total then p
  else
    { p with
      name := d.name
      position := d.position
      current_total := d.current_total
      last_modified := now }

/-- One `updated` iteration of `_apply_player_changes`. -/
def applyPlayerUpdate (now : Nat) (d : GamePlayerSync) (st : Store) : Except String Store := do
  let player? ← scalarOneOrNone (st.players.filter (fun p => p.client_id == some d.id))
  match player? with
  | none => Except.ok st
  | some _ =>
    Except.ok { st with
      players := st.players.map
        (fun p => if p.client_id == some d.id then updatePlayerFields d now p else p) }

/-- The soft-delete overwrite for players (no-op when already deleted). -/
def softDeletePlayer (now : Nat) (p : GamePlayer) : GamePlayer :=
  if p.is_deleted = true then p
  else { p with is_deleted := true, last_modified := now }

/-- One `deleted` iteration of `_apply_player_changes`. -/
def applyPlayerDelete (now : Nat) (client_id : String) (st : Store) : Except String Store := do
  let player? ← scalarOneOrNone (st.players.filter (fun p => p.client_id == some client_id))
  match player? with
  | none => Except.ok st
  | some _ =>
    Except.ok { st with
      players := st.players.map
        (fun p => if p.client_id == some client_id then softDeletePlayer now p else p) }

/-- `SyncService._apply_player_changes`. -/
def applyPlayerChanges (now : Nat) (ch : PlayerTableChanges) (st : Store) :
    Except String Store := do
  let st1 ← ch.created.foldlM (fun s d => applyPlayerCreate now d s) st
  let st2 ← ch.updated.foldlM (fun s d => applyPlayerUpdate now d s) st1
  ch.deleted.foldlM (fun s c => applyPlayerDelete now c s) st2

/-- The caller resolution of a round `created` iteration:
`caller_id = None; if data.caller_id: ...` — Python truthiness makes an
empty string skip the lookup; an unresolvable caller stays `None`. -/
def resolveCaller (st : Store) (caller : Option String) :
    Except String (Option Nat) :=
  match caller with
  | none => Except.ok none
  | some c =>
    if c = "" then Except.ok none
    else do
      let caller? ← getPlayerByClientId st c
      match caller? with
      | some p => Except.ok (some p.id)
      | none => Except.ok none

/-- One `created` iteration of `_apply_round_changes`: an unresolvable
parent game skips the record; an unresolvable caller is stored as null. -/
def applyRoundCreate (now : Nat) (d : RoundSync) (st : Store) : Except String Store := do
  let game? ← getGameByClientId st d.game_id
  match game? with
  | none => Except.ok st
  | some game => do
    let caller_id ← resolveCaller st d.caller_id
    Except.ok { st with
      rounds := st.rounds ++
        [{ id := st.nextId
           client_id := some d.id
           is_deleted := false
           last_modified := now
           created_at := now
           game_id := game.id
           round_number := d.round_number
           caller_id := caller_id }]
      nextId := st.nextId + 1 }

/-- The field overwrite of one `updated` iteration of
`_apply_round_changes`: `round_number` always assigned, `caller_id`
only when the supplied caller resolved (else the stored value is
kept); the UPDATE and its `onupdate` refresh fire only on a net
change. -/
def updateRoundFields (d : RoundSync) (newCaller : Option Nat) (now : Nat) (r : Round) : Round :=
  let caller_id := match newCaller with
    | some cid => some cid
    | none => r.caller_id
  if r.round_number = d.round_number ∧ r.caller_id = caller_id then r
  else
    { r with
      round_number := d.round_number
      caller_id := caller_id
      last_modified := now }

/-- One `updated` iteration of `_apply_round_changes`. -/
def applyRoundUpdate (now : Nat) (d : RoundSync) (st : Store) : Except String Store := do
  let round? ← scalarOneOrNone (st.rounds.filter (fun r => r.client_id == some d.id))
  match round? with
  | none => Except.ok st
  | some _ => do
    let newCaller ← resolveCaller st d.caller_id
    Except.ok { st with
      rounds := st.rounds.map
        (fun r => if r.client_id == some d.id then updateRoundFields d newCaller now r else r) }

/-- The soft-delete overwrite for rounds (no-op when already deleted). -/
def softDeleteRound (now : Nat) (r : Round) : Round :=
  if r.is_deleted = true then r
  else { r with is_deleted := true, last_modified := now }

/-- One `deleted` iteration of `_apply_round_changes`. -/
def applyRoundDelete (now : Nat) (client_id : String) (st : Store) : Except String Store := do
  let round? ← scalarOneOrNone (st.rounds.filter (fun r => r.client_id == some client_id))
  match round? with
  | none => Except.ok st
  | some _ =>
    Except.ok { st with
      rounds := st.rounds.map
        (fun r => if r.client_id == some client_id then softDeleteRound now r else r) }

/-- `SyncService._apply_round_changes`. -/
def applyRoundChanges (now : Nat) (ch : RoundTableChanges) (st : Store) :
    Except String Store := do
  let st1 ← ch.created.foldlM (fun s d => applyRoundCreate now d s) st
  let st2 ← ch.updated.foldlM (fun s d => applyRoundUpdate now d s) st1
  ch.deleted.foldlM (fun s c => applyRoundDelete now c s) st2

/-- One `created` iteration of `_apply_score_changes`: both the parent
round and the peer player are looked up (in that order); if either is
unresolvable the record is skipped. -/
def applyScoreCreate (now : Nat) (d : ScoreSync) (st : Store) : Except String Store := do
  let round? ← getRoundByClientId st d.round_id
  let player? ← getPlayerByClientId st d.player_id
  match round?, player? with
  | some round, some player =>
    Except.ok { st with
      scores := st.scores ++
        [{ id := st.nextId
           client_id := some d.id
           is_deleted := false
           last_modified := now
           created_at := now
           round_id := round.id
           player_id := player.id
           raw_score := d.raw_score
           bonus_applied := d.bonus_applied
           final_score := d.final_score
           total_after := d.total_after }]
      nextId := st.nextId + 1 }
  | _, _ => Except.ok st

/-- The field overwrite of one `updated` iteration of
`_apply_score_changes` (UPDATE and `onupdate` only on a net change). -/
def updateScoreFields (d : ScoreSync) (now : Nat) (s : Score) : Score :=
  if s.raw_score = d.raw_score ∧ s.bonus_applied = d.bonus_applied
      ∧ s.final_score = d.final_score ∧ s.total_after = d.total_after then s
  else
    { s with
      raw_score := d.raw_score
      bonus_applied := d.bonus_applied
      final_score := d.final_score
      total_after := d.total_after
      last_modified := now }

/-- One `updated` iteration of `_apply_score_changes`. -/
def applyScoreUpdate (now : Nat) (d : ScoreSync) (st : Store) : Except String Store := do
  let score? ← scalarOneOrNone (st.scores.filter (fun s => s.client_id == some d.id))
  match score? with
  | none => Except.ok st
  | some _ =>
    Except.ok { st with
      scores := st.scores.map
        (fun s => if s.client_id == some d.id then updateScoreFields d now s else s) }

/-- The soft-delete overwrite for scores (no-op when already deleted). -/
def softDeleteScore (now : Nat) (s : Score) : Score :=
  if s.is_deleted = true then s
  else { s with is_deleted := true, last_modified := now }

/-- One `deleted` iteration of `_apply_score_changes`. -/
def applyScoreDelete (now : Nat) (client_id : String) (st : Store) : Except String Store := do
  let score? ← scalarOneOrNone (st.scores.filter (fun s => s.client_id == some client_id))
  match score? with
  | none => Except.ok st
  | some _ =>
    Except.ok { st with
      scores := st.scores.map
        (fun s => if s.client_id == some client_id then softDeleteScore now s else s) }

/-- `SyncService._apply_score_changes`. -/
def applyScoreChanges (now : Nat) (ch : ScoreTableChanges) (st : Store) :
    Except String Store := do
  let st1 ← ch.created.foldlM (fun s d => applyScoreCreate now d s) st
  let st2 ← ch.updated.foldlM (fun s d => applyScoreUpdate now d s) st1
  ch.deleted.foldlM (fun s c => applyScoreDelete now c s) st2

/-- The body of `push`'s try block: the four tables in dependency order. -/
def applyChanges (device_id : String) (now : Nat) (ch : SyncChanges) (st : Store) :
    Except String Store := do
  let st1 ← applyGameChanges device_id now ch.games st
  let st2 ← applyPlayerChanges now ch.game_players st1
  let st3 ← applyRoundChanges now ch.rounds st2
  applyScoreChanges now ch.scores st3

/-- `SyncService.push`: conflict gate, then transactional application;
an error rolls the whole transaction back (the input store is returned
unchanged) and becomes the sole entry of the error list. -/
def push (st : Store) (device_id : String) (now : Nat) (ch : SyncChanges)
    (last_pulled_at : Nat) : Store × Bool × List String :=
  if checkConflicts st device_id last_pulled_at then
    (st, false, ["Conflict detected. Please pull first."])
  else
    match applyChanges device_id now ch st with
    | Except.ok st' => (st', true, [])
    | Except.error e => (st, false, [e])

/-! ## Concrete fixtures used by witnesses and counterexamples -/

/-- A game owned by device `"A"` with client identity `"x"`. -/
def gameA1 : Game :=
  { id := 1, client_id := some "x", is_deleted := false, last_modified := 5, created_at := 5,
    device_id := "A", name := none, target_score := 100, status := "active",
    winner_id := none, started_at := 5, ended_at := none }

/-- A second game with the same client identity `"x"` (reachable by
pushing the same `created` entry twice, see C7). -/
def gameA2 : Game := { gameA1 with id := 2 }

/-- A store holding two games that share the client identity `"x"`. -/
def dupStore : Store := { games := [gameA1, gameA2], players := [], rounds := [], scores := [], nextId := 3 }

/-- An `updated` wire entry for client identity `"x"`. -/
def updX : GameSync :=
  { id := "x", name := some "renamed", target_score := 50, status := "completed",
    winner_id := none, started_at := 5, ended_at := some 9 }

/-- The Game `created` wire entry of the C1 scenario: client identity
`"c1"`, with the remaining payload fields arbitrary. -/
def c1Entry (nm : Option String) (ts : Int) (stt : String) (sa : Nat) : GameSync :=
  { id := "c1", name := nm, target_score := ts, status := stt,
    winner_id := none, started_at := sa, ended_at := none }

/-- A game with client identity `"g1"`, owned by device `"D"`. -/
def gameG1 : Game :=
  { id := 1, client_id := some "g1", is_deleted := false, last_modified := 5, created_at := 5,
    device_id := "D", name := none, target_score := 100, status := "active",
    winner_id := none, started_at := 5, ended_at := none }

/-- A store holding only `gameG1`. -/
def singleGameStore : Store :=
  { games := [gameG1], players := [], rounds := [], scores := [], nextId := 2 }

/-- A Round `created` wire entry whose `game_id` resolves but whose
`caller_id` (`"ghost"`) resolves to no player. -/
def ghostRound : RoundSync :=
  { id := "r1", game_id := "g1", round_number := 1, caller_id := some "ghost", created_at := 3 }

/-- A player with client identity `"p1"` and server identity `7`. -/
def playerP7 : GamePlayer :=
  { id := 7, client_id := some "p1", is_deleted := false, last_modified := 5, created_at := 5,
    game_id := 1, name := "Pat", position := 1, current_total := 0 }

/-- A store where `gameG1`'s winner references `playerP7` by server
identity. -/
def winnerStore : Store :=
  { games := [{ gameG1 with winner_id := some 7 }], players := [playerP7],
    rounds := [], scores := [], nextId := 8 }

/-- A Round `created` wire entry (resolvable parent, no caller) used to
exhibit duplicate insertion on retry. -/
def retryRound : RoundSync :=
  { id := "r1", game_id := "g1", round_number := 1, caller_id := none, created_at := 3 }

/-- An `updated` wire entry for `gameG1`'s client identity `"g1"`. -/
def updG1 : GameSync :=
  { id := "g1", name := some "renamed", target_score := 50, status := "completed",
    winner_id := none, started_at := 5, ended_at := some 9 }

/-- `singleGameStore` after applying `updG1` at server time 11. -/
def gameUpdatedStore : Store :=
  { games := [{ gameG1 with name := some "renamed", target_score := 50, status := "completed", ended_at := some 9, last_modified := 11 }],
    players := [], rounds := [], scores := [], nextId := 2 }

/-- A round of `gameG1` with client identity `"r1"` and server identity 3. -/
def roundR1 : Round :=
  { id := 3, client_id := some "r1", is_deleted := false, last_modified := 5, created_at := 5,
    game_id := 1, round_number := 1, caller_id := none }

/-- A score of `playerP7` in `roundR1` with client identity `"s1"`. -/
def scoreS1 : Score :=
  { id := 4, client_id := some "s1", is_deleted := false, last_modified := 5, created_at := 5,
    round_id := 3, player_id := 7, raw_score := 10, bonus_applied := 0, final_score := 10,
    total_after := 10 }

/-- A store with one game (device `"D"`), one player, one round and one
score, all reachable through `gameG1`. -/
def fullStore : Store :=
  { games := [gameG1], players := [playerP7], rounds := [roundR1], scores := [scoreS1],
    nextId := 9 }

/-- An `updated` wire entry for `playerP7`'s client identity `"p1"`. -/
def updP1 : GamePlayerSync :=
  { id := "p1", game_id := "g1", name := "Pat2", position := 2, current_total := 7 }

/-- An `updated` wire entry for `roundR1`'s client identity `"r1"`. -/
def updR1 : RoundSync :=
  { id := "r1", game_id := "g1", round_number := 2, caller_id := none, created_at := 3 }

/-- A push batch with only `updated`/`deleted` entries touching all four
tables of `fullStore`. -/
def retryBatch : SyncChanges :=
  { games := { updated := [updG1] }
    game_players := { updated := [updP1] }
    rounds := { updated := [updR1], deleted := ["r1"] }
    scores := { deleted := ["s1"] } }

/-! ### List-level characterizations of the `updated`/`deleted` loops

Every `updated`/`deleted` iteration of the four `_apply_*_changes`
methods has the same shape: `scalar_one_or_none` over the rows whose
client identity matches the entry, then an in-place overwrite of the
matching row.  The following combinators capture that shape at the
level of a single table's row list; each `applyXUpdate`/`applyXDelete`
is proved equal to an instance below. -/

/-- One `updated`/`deleted` iteration on a row list: look the entry up
by its predicate with `scalar_one_or_none`, skip silently when absent,
overwrite in place when found. -/
def overwriteStep {E R : Type} (pred : E → R → Bool) (ov : E → R → R) (e : E)
    (l : List R) : Except String (List R) := do
  let x? ← scalarOneOrNone (l.filter (pred e))
  match x? with
  | none => Except.ok l
  | some _ => Except.ok (l.map fun x => if pred e x then ov e x else x)

/-- A whole `updated` (or `deleted`) loop on a row list. -/
def overwriteFold {E R : Type} (pred : E → R → Bool) (ov : E → R → R) (es : List E)
    (l : List R) : Except String (List R) :=
  es.foldlM (fun acc e => overwriteStep pred ov e acc) l

/-- The pointwise effect of a successful `overwriteFold` on one row. -/
def overwriteChain {E R : Type} (pred : E → R → Bool) (ov : E → R → R) (es : List E)
    (x : R) : R :=
  es.foldl (fun y e => if pred e y then ov e y else y) x

/-- `resolveCaller` reads only the players table; this is the same
computation at the level of that list. -/
def resolveCallerP (players : List GamePlayer) (caller : Option String) :
    Except String (Option Nat) :=
  match caller with
  | none => Except.ok none
  | some c =>
    if c = "" then Except.ok none
    else do
      let caller? ← scalarOneOrNone (players.filter (fun p => p.client_id == some c))
      match caller? with
      | some p => Except.ok (some p.id)
      | none => Except.ok none

/-- The caller a round `updated` iteration stores, as a total function
(the error case is never reached by a successful update). -/
def roundCallerChoice (players : List GamePlayer) (d : RoundSync) : Option Nat :=
  match resolveCallerP players d.caller_id with
  | Except.ok nc => nc
  | Except.error _ => none

/-- One round `updated` iteration at the level of the rounds list, with
the players table it reads passed explicitly. -/
def roundUpdateStepL (players : List GamePlayer) (now : Nat) (d : RoundSync)
    (l : List Round) : Except String (List Round) := do
  let round? ← scalarOneOrNone (l.filter (fun r => r.client_id == some d.id))
  match round? with
  | none => Except.ok l
  | some _ => do
    let nc ← resolveCallerP players d.caller_id
    Except.ok (l.map fun r => if r.client_id == some d.id then updateRoundFields d nc now r else r)

/-- The whole round `updated` loop at list level. -/
def roundUpdateFoldL (players : List GamePlayer) (now : Nat) (es : List RoundSync)
    (l : List Round) : Except String (List Round) :=
  es.foldlM (fun acc e => roundUpdateStepL players now e acc) l

/-! ## Closed forms for the pull-side classification loops -/

theorem classifyGameRecords_eq (l : List Game) :
    classifyGameRecords l =
      { created := (l.filter fun r => !r.is_deleted && r.client_id.isNone).map gameSyncOfRecord
        updated := (l.filter fun r => !r.is_deleted && !r.client_id.isNone).map gameSyncOfRecord
        deleted := (l.filter fun r => r.is_deleted).map fun r => syncIdOf r.client_id r.id } := by
  induction l with
  | nil => rfl
  | cons r rs ih =>
    simp only [classifyGameRecords, ih]
    by_cases hd : r.is_deleted
    · simp [hd, List.filter_cons]
    · cases hco : r.client_id with
      | none => simp [hd, hco, List.filter_cons]
      | some c => simp [hd, hco, List.filter_cons]

theorem classifyPlayerRecords_eq (st : Store) (l : List GamePlayer) :
    classifyPlayerRecords st l =
      { created := (l.filter fun r => !r.is_deleted && r.client_id.isNone).map (playerSyncOfRecord st)
        updated := (l.filter fun r => !r.is_deleted && !r.client_id.isNone).map (playerSyncOfRecord st)
        deleted := (l.filter fun r => r.is_deleted).map fun r => syncIdOf r.client_id r.id } := by
  induction l with
  | nil => rfl
  | cons r rs ih =>
    simp only [classifyPlayerRecords, ih]
    by_cases hd : r.is_deleted
    · simp [hd, List.filter_cons]
    · cases hco : r.client_id with
      | none => simp [hd, hco, List.filter_cons]
      | some c => simp [hd, hco, List.filter_cons]

theorem classifyRoundRecords_eq (st : Store) (l : List Round) :
    classifyRoundRecords st l =
      { created := (l.filter fun r => !r.is_deleted && r.client_id.isNone).map (roundSyncOfRecord st)
        updated := (l.filter fun r => !r.is_deleted && !r.client_id.isNone).map (roundSyncOfRecord st)
        deleted := (l.filter fun r => r.is_deleted).map fun r => syncIdOf r.client_id r.id } := by
  induction l with
  | nil => rfl
  | cons r rs ih =>
    simp only [classifyRoundRecords, ih]
    by_cases hd : r.is_deleted
    · simp [hd, List.filter_cons]
    · cases hco : r.client_id with
      | none => simp [hd, hco, List.filter_cons]
      | some c => simp [hd, hco, List.filter_cons]

theorem classifyScoreRecords_eq (st : Store) (l : List Score) :
    classifyScoreRecords st l =
      { created := (l.filter fun r => !r.is_deleted && r.client_id.isNone).map (scoreSyncOfRecord st)
        updated := (l.filter fun r => !r.is_deleted && !r.client_id.isNone).map (scoreSyncOfRecord st)
        deleted := (l.filter fun r => r.is_deleted).map fun r => syncIdOf r.client_id r.id } := by
  induction l with
  | nil => rfl
  | cons r rs ih =>
    simp only [classifyScoreRecords, ih]
    by_cases hd : r.is_deleted
    · simp [hd, List.filter_cons]
    · cases hco : r.client_id with
      | none => simp [hd, hco, List.filter_cons]
      | some c => simp [hd, hco, List.filter_cons]

theorem pullPlayers_eq (st : Store) (since : Nat) (game_ids : List Nat) :
    pullPlayers st since game_ids = classifyPlayerRecords st (playerQuery st since game_ids) := by
  unfold pullPlayers
  by_cases h : game_ids.isEmpty
  · have hg : game_ids = [] := List.isEmpty_iff.mp h
    simp [h, hg, playerQuery, classifyPlayerRecords]
  · simp [h]

theorem pullRounds_eq (st : Store) (since : Nat) (game_ids : List Nat) :
    pullRounds st since game_ids = classifyRoundRecords st (roundQuery st since game_ids) := by
  unfold pullRounds
  by_cases h : game_ids.isEmpty
  · have hg : game_ids = [] := List.isEmpty_iff.mp h
    simp [h, hg, roundQuery, classifyRoundRecords]
  · simp [h]

theorem pullScores_eq (st : Store) (since : Nat) (round_ids : List Nat) :
    pullScores st since round_ids = classifyScoreRecords st (scoreQuery st since round_ids) := by
  unfold pullScores
  by_cases h : round_ids.isEmpty
  · have hg : round_ids = [] := List.isEmpty_iff.mp h
    simp [h, hg, scoreQuery, classifyScoreRecords]
  · simp [h]

/-! ## Claim theorems -/

/-- C2: every record returned by `pull`, in each of the four tables, is
classified into exactly one of the created/updated/deleted buckets by
the rule: deleted if its soft-delete flag is set (regardless of client
identity); otherwise created if its client identity is null; otherwise
updated.  The three buckets of each table are exactly the corresponding
filters of that table's queried row set. -/
theorem pull_classifies_by_rule (st : Store) (device_id : String) (last_pulled_at now : Nat) :
    ((pull st device_id last_pulled_at now).1.games =
      { created := ((gameQuery st device_id (sinceOf last_pulled_at)).filter
            fun r => !r.is_deleted && r.client_id.isNone).map gameSyncOfRecord
        updated := ((gameQuery st device_id (sinceOf last_pulled_at)).filter
            fun r => !r.is_deleted && !r.client_id.isNone).map gameSyncOfRecord
        deleted := ((gameQuery st device_id (sinceOf last_pulled_at)).filter
            fun r => r.is_deleted).map fun r => syncIdOf r.client_id r.id })
    ∧ ((pull st device_id last_pulled_at now).1.game_players =
      { created := ((playerQuery st (sinceOf last_pulled_at) (getDeviceGameIds st device_id)).filter
            fun r => !r.is_deleted && r.client_id.isNone).map (playerSyncOfRecord st)
        updated := ((playerQuery st (sinceOf last_pulled_at) (getDeviceGameIds st device_id)).filter
            fun r => !r.is_deleted && !r.client_id.isNone).map (playerSyncOfRecord st)
        deleted := ((playerQuery st (sinceOf last_pulled_at) (getDeviceGameIds st device_id)).filter
            fun r => r.is_deleted).map fun r => syncIdOf r.client_id r.id })
    ∧ ((pull st device_id last_pulled_at now).1.rounds =
      { created := ((roundQuery st (sinceOf last_pulled_at) (getDeviceGameIds st device_id)).filter
            fun r => !r.is_deleted && r.client_id.isNone).map (roundSyncOfRecord st)
        updated := ((roundQuery st (sinceOf last_pulled_at) (getDeviceGameIds st device_id)).filter
            fun r => !r.is_deleted && !r.client_id.isNone).map (roundSyncOfRecord st)
        deleted := ((roundQuery st (sinceOf last_pulled_at) (getDeviceGameIds st device_id)).filter
            fun r => r.is_deleted).map fun r => syncIdOf r.client_id r.id })
    ∧ ((pull st device_id last_pulled_at now).1.scores =
      { created := ((scoreQuery st (sinceOf last_pulled_at)
              (getRoundIds st (getDeviceGameIds st device_id))).filter
            fun r => !r.is_deleted && r.client_id.isNone).map (scoreSyncOfRecord st)
        updated := ((scoreQuery st (sinceOf last_pulled_at)
              (getRoundIds st (getDeviceGameIds st device_id))).filter
            fun r => !r.is_deleted && !r.client_id.isNone).map (scoreSyncOfRecord st)
        deleted := ((scoreQuery st (sinceOf last_pulled_at)
              (getRoundIds st (getDeviceGameIds st device_id))).filter
            fun r => r.is_deleted).map fun r => syncIdOf r.client_id r.id }) := by
  refine ⟨?_, ?_, ?_, ?_⟩ <;>
    simp [pull, pullGames, pullPlayers_eq, pullRounds_eq, pullScores_eq,
      classifyGameRecords_eq, classifyPlayerRecords_eq, classifyRoundRecords_eq,
      classifyScoreRecords_eq]

/-- C8: `pull` always returns the server time captured at the start of
the call as the new watermark, even for an empty change set; hence for
two consecutive pulls the second watermark is no earlier than the
first, and a pull at the first watermark with no intervening writes
(every row's `last_modified` at most that watermark) returns an empty
change set. -/
theorem pull_watermark_monotone_and_empty (st : Store) (device_id : String) (now1 now2 : Nat)
    (hmono : now1 ≤ now2)
    (hg : ∀ g ∈ st.games, g.last_modified ≤ now1)
    (hp : ∀ p ∈ st.players, p.last_modified ≤ now1)
    (hr : ∀ r ∈ st.rounds, r.last_modified ≤ now1)
    (hs : ∀ s ∈ st.scores, s.last_modified ≤ now1) :
    (∀ (st' : Store) (dev' : String) (lpa n : Nat), (pull st' dev' lpa n).2 = n)
    ∧ now1 ≤ (pull st device_id now1 now2).2
    ∧ pull st device_id now1 now2 = ({}, now2) := by
  have hsince : sinceOf now1 = now1 := by
    unfold sinceOf; split <;> omega
  have hgq : gameQuery st device_id (sinceOf now1) = [] := by
    rw [hsince]
    refine List.filter_eq_nil_iff.mpr (fun g hgm => ?_)
    have := hg g hgm
    simp only [Bool.and_eq_true, decide_eq_true_eq, not_and]
    intro _
    omega
  have hpq : playerQuery st (sinceOf now1) (getDeviceGameIds st device_id) = [] := by
    rw [hsince]
    refine List.filter_eq_nil_iff.mpr (fun p hpm => ?_)
    have := hp p hpm
    simp only [Bool.and_eq_true, decide_eq_true_eq, not_and]
    intro _
    omega
  have hrq : roundQuery st (sinceOf now1) (getDeviceGameIds st device_id) = [] := by
    rw [hsince]
    refine List.filter_eq_nil_iff.mpr (fun r hrm => ?_)
    have := hr r hrm
    simp only [Bool.and_eq_true, decide_eq_true_eq, not_and]
    intro _
    omega
  have hsq : scoreQuery st (sinceOf now1) (getRoundIds st (getDeviceGameIds st device_id)) = [] := by
    rw [hsince]
    refine List.filter_eq_nil_iff.mpr (fun s hsm => ?_)
    have := hs s hsm
    simp only [Bool.and_eq_true, decide_eq_true_eq, not_and]
    intro _
    omega
  refine ⟨fun st' dev' lpa n => rfl, ?_, ?_⟩
  · exact hmono
  · simp [pull, pullGames, pullPlayers_eq, pullRounds_eq, pullScores_eq, hgq, hpq, hrq, hsq,
      classifyGameRecords, classifyPlayerRecords, classifyRoundRecords, classifyScoreRecords]

/-- Witness for C8 at a concrete store: a device with one game last
modified at time 5, pulled at watermark 5 with server time 9. -/
theorem pull_watermark_monotone_and_empty_witness :
    pull { games := [{ id := 1, client_id := some "g1", is_deleted := false, last_modified := 5,
                       created_at := 5, device_id := "D", name := none, target_score := 100,
                       status := "active", winner_id := none, started_at := 5, ended_at := none }],
           players := [], rounds := [], scores := [], nextId := 2 } "D" 5 9 = ({}, 9) := by
  exact (pull_watermark_monotone_and_empty _ "D" 5 9 (by omega)
    (by intro g hg; simp at hg; simp [hg]) (by intro p hp; simp at hp)
    (by intro r hr; simp at hr) (by intro s hs; simp at hs)).2.2

/-- C10: applying a Game `updated` entry overwrites only `name`,
`target_score`, `status` and `ended_at` with the client-supplied
values; the record's `winner_id`, `started_at`, `client_id`,
`device_id`, `is_deleted` and `created_at` are unchanged, and rows not
matching the entry's client identity are untouched. -/
theorem game_update_frame (st : Store) (now : Nat) (d : GameSync) (g : Game)
    (h : st.games.filter (fun x => x.client_id == some d.id) = [g]) :
    applyGameUpdate now d st =
      Except.ok { st with games := st.games.map fun x => if x.client_id == some d.id then updateGameFields d now x else x }
    ∧ (updateGameFields d now g).name = d.name
    ∧ (updateGameFields d now g).target_score = d.target_score
    ∧ (updateGameFields d now g).status = d.status
    ∧ (updateGameFields d now g).ended_at = d.ended_at
    ∧ (updateGameFields d now g).winner_id = g.winner_id
    ∧ (updateGameFields d now g).started_at = g.started_at
    ∧ (updateGameFields d now g).client_id = g.client_id
    ∧ (updateGameFields d now g).device_id = g.device_id
    ∧ (updateGameFields d now g).is_deleted = g.is_deleted
    ∧ (updateGameFields d now g).created_at = g.created_at := by
  constructor
  · simp [applyGameUpdate, h, scalarOneOrNone, Bind.bind, Except.bind]
  · by_cases hcond : g.name = d.name ∧ g.target_score = d.target_score
        ∧ g.status = d.status ∧ g.ended_at = d.ended_at
    · obtain ⟨h1, h2, h3, h4⟩ := hcond
      simp [updateGameFields, h1, h2, h3, h4]
    · simp [updateGameFields, hcond]

/-- Witness for C10 at a concrete store and update payload. -/
theorem game_update_frame_witness :
    applyGameUpdate 9
      { id := "x", name := some "renamed", target_score := 50, status := "completed",
        winner_id := some "w", started_at := 8, ended_at := some 9 }
      { games := [{ id := 1, client_id := some "x", is_deleted := false, last_modified := 5,
                    created_at := 5, device_id := "A", name := none, target_score := 100,
                    status := "active", winner_id := some 7, started_at := 5, ended_at := none }],
        players := [], rounds := [], scores := [], nextId := 2 }
      = Except.ok
      { games := [{ id := 1, client_id := some "x", is_deleted := false, last_modified := 9,
                    created_at := 5, device_id := "A", name := some "renamed", target_score := 50,
                    status := "completed", winner_id := some 7, started_at := 5, ended_at := some 9 }],
        players := [], rounds := [], scores := [], nextId := 2 } := by
  have h := (game_update_frame
    { games := [{ id := 1, client_id := some "x", is_deleted := false, last_modified := 5,
                  created_at := 5, device_id := "A", name := none, target_score := 100,
                  status := "active", winner_id := some 7, started_at := 5, ended_at := none }],
      players := [], rounds := [], scores := [], nextId := 2 } 9
    { id := "x", name := some "renamed", target_score := 50, status := "completed",
      winner_id := some "w", started_at := 8, ended_at := some 9 }
    { id := 1, client_id := some "x", is_deleted := false, last_modified := 5,
      created_at := 5, device_id := "A", name := none, target_score := 100,
      status := "active", winner_id := some 7, started_at := 5, ended_at := none }
    (by decide)).1
  simpa [updateGameFields] using h

/-- C4: if the conflict gate passes but an unexpected failure is raised
while applying the changes, `push` rolls the transaction back (the
store is exactly as before the call) and returns `ok = false` with the
failure's description as the sole error. -/
theorem push_rollback_on_failure (st : Store) (device_id : String) (now : Nat)
    (ch : SyncChanges) (last_pulled_at : Nat) (e : String)
    (hc : checkConflicts st device_id last_pulled_at = false)
    (he : applyChanges device_id now ch st = Except.error e) :
    push st device_id now ch last_pulled_at = (st, false, [e]) := by
  simp [push, hc, he]

/-- Witness for C4: on `dupStore` the update raises the store's
multiple-rows failure, and `push` rolls back and reports it as the sole
error. -/
theorem push_rollback_on_failure_witness :
    push dupStore "A" 11 { games := { updated := [updX] } } 10 =
      (dupStore, false, ["Multiple rows were found when exactly one or none was required"]) :=
  push_rollback_on_failure dupStore "A" 11 { games := { updated := [updX] } } 10 _ rfl rfl

/-! ## Empty change sets are no-ops -/

theorem applyGameChanges_empty (device_id : String) (now : Nat) (st : Store) :
    applyGameChanges device_id now {} st = Except.ok st := rfl

theorem applyPlayerChanges_empty (now : Nat) (st : Store) :
    applyPlayerChanges now {} st = Except.ok st := rfl

theorem applyRoundChanges_empty (now : Nat) (st : Store) :
    applyRoundChanges now {} st = Except.ok st := rfl

theorem applyScoreChanges_empty (now : Nat) (st : Store) :
    applyScoreChanges now {} st = Except.ok st := rfl

/-- C9: push resolves `updated` and `deleted` entries by client identity
alone in all four tables — there is no ownership check.  If the store's
unique record with the pushed client identity is a Game owned by device
`A` (or a Player, Round or Score reachable only through a Game owned by
`A`), a push from a different device `B` that passes `B`'s own conflict
gate overwrites, respectively soft-deletes, `A`'s record and reports
success. -/
theorem push_no_ownership_check (st : Store) (A B : String) (last_pulled_at now : Nat)
    (hgate : checkConflicts st B last_pulled_at = false) :
    (∀ (g : Game) (d : GameSync),
      st.games.filter (fun x => x.client_id == some d.id) = [g] →
      g.device_id = A → A ≠ B →
      push st B now { games := { updated := [d] } } last_pulled_at =
        ({ st with games := st.games.map fun x => if x.client_id == some d.id then updateGameFields d now x else x }, true, []))
    ∧ (∀ (g : Game) (c : String),
      st.games.filter (fun x => x.client_id == some c) = [g] →
      g.device_id = A → A ≠ B →
      push st B now { games := { deleted := [c] } } last_pulled_at =
        ({ st with games := st.games.map fun x => if x.client_id == some c then softDeleteGame now x else x }, true, []))
    ∧ (∀ (p : GamePlayer) (g : Game) (d : GamePlayerSync),
      st.players.filter (fun x => x.client_id == some d.id) = [p] →
      g ∈ st.games → p.game_id = g.id → g.device_id = A → A ≠ B →
      push st B now { game_players := { updated := [d] } } last_pulled_at =
        ({ st with players := st.players.map fun x => if x.client_id == some d.id then updatePlayerFields d now x else x }, true, []))
    ∧ (∀ (p : GamePlayer) (g : Game) (c : String),
      st.players.filter (fun x => x.client_id == some c) = [p] →
      g ∈ st.games → p.game_id = g.id → g.device_id = A → A ≠ B →
      push st B now { game_players := { deleted := [c] } } last_pulled_at =
        ({ st with players := st.players.map fun x => if x.client_id == some c then softDeletePlayer now x else x }, true, []))
    ∧ (∀ (r : Round) (g : Game) (d : RoundSync) (nc : Option Nat),
      st.rounds.filter (fun x => x.client_id == some d.id) = [r] →
      g ∈ st.games → r.game_id = g.id → g.device_id = A → A ≠ B →
      resolveCaller st d.caller_id = Except.ok nc →
      push st B now { rounds := { updated := [d] } } last_pulled_at =
        ({ st with rounds := st.rounds.map fun x => if x.client_id == some d.id then updateRoundFields d nc now x else x }, true, []))
    ∧ (∀ (r : Round) (g : Game) (c : String),
      st.rounds.filter (fun x => x.client_id == some c) = [r] →
      g ∈ st.games → r.game_id = g.id → g.device_id = A → A ≠ B →
      push st B now { rounds := { deleted := [c] } } last_pulled_at =
        ({ st with rounds := st.rounds.map fun x => if x.client_id == some c then softDeleteRound now x else x }, true, []))
    ∧ (∀ (s : Score) (r : Round) (g : Game) (d : ScoreSync),
      st.scores.filter (fun x => x.client_id == some d.id) = [s] →
      r ∈ st.rounds → s.round_id = r.id → g ∈ st.games → r.game_id = g.id →
      g.device_id = A → A ≠ B →
      push st B now { scores := { updated := [d] } } last_pulled_at =
        ({ st with scores := st.scores.map fun x => if x.client_id == some d.id then updateScoreFields d now x else x }, true, []))
    ∧ (∀ (s : Score) (r : Round) (g : Game) (c : String),
      st.scores.filter (fun x => x.client_id == some c) = [s] →
      r ∈ st.rounds → s.round_id = r.id → g ∈ st.games → r.game_id = g.id →
      g.device_id = A → A ≠ B →
      push st B now { scores := { deleted := [c] } } last_pulled_at =
        ({ st with scores := st.scores.map fun x => if x.client_id == some c then softDeleteScore now x else x }, true, [])) := by
  refine ⟨?_, ?_, ?_, ?_, ?_, ?_, ?_, ?_⟩
  · intro g d hg _hown _hAB
    simp [push, hgate, applyChanges, applyGameChanges, applyGameUpdate, applyGameDelete, hg,
      scalarOneOrNone, applyPlayerChanges, applyRoundChanges, applyScoreChanges,
      List.foldlM, Bind.bind, Except.bind, pure, Except.pure]
  · intro g c hg _hown _hAB
    simp [push, hgate, applyChanges, applyGameChanges, applyGameUpdate, applyGameDelete, hg,
      scalarOneOrNone, applyPlayerChanges, applyRoundChanges, applyScoreChanges,
      List.foldlM, Bind.bind, Except.bind, pure, Except.pure]
  · intro p g d hp _hmem _hpar _hown _hAB
    simp [push, hgate, applyChanges, applyGameChanges, applyPlayerChanges, applyPlayerUpdate,
      applyPlayerDelete, hp, scalarOneOrNone, applyRoundChanges, applyScoreChanges,
      List.foldlM, Bind.bind, Except.bind, pure, Except.pure]
  · intro p g c hp _hmem _hpar _hown _hAB
    simp [push, hgate, applyChanges, applyGameChanges, applyPlayerChanges, applyPlayerUpdate,
      applyPlayerDelete, hp, scalarOneOrNone, applyRoundChanges, applyScoreChanges,
      List.foldlM, Bind.bind, Except.bind, pure, Except.pure]
  · intro r g d nc hr _hmem _hpar _hown _hAB hc
    simp [push, hgate, applyChanges, applyGameChanges, applyPlayerChanges, applyRoundChanges,
      applyRoundUpdate, applyRoundDelete, hr, hc, scalarOneOrNone, applyScoreChanges,
      List.foldlM, Bind.bind, Except.bind, pure, Except.pure]
  · intro r g c hr _hmem _hpar _hown _hAB
    simp [push, hgate, applyChanges, applyGameChanges, applyPlayerChanges, applyRoundChanges,
      applyRoundUpdate, applyRoundDelete, hr, scalarOneOrNone, applyScoreChanges,
      List.foldlM, Bind.bind, Except.bind, pure, Except.pure]
  · intro s r g d hs _hrmem _hspar _hgmem _hrpar _hown _hAB
    simp [push, hgate, applyChanges, applyGameChanges, applyPlayerChanges, applyRoundChanges,
      applyScoreChanges, applyScoreUpdate, applyScoreDelete, hs, scalarOneOrNone,
      List.foldlM, Bind.bind, Except.bind, pure, Except.pure]
  · intro s r g c hs _hrmem _hspar _hgmem _hrpar _hown _hAB
    simp [push, hgate, applyChanges, applyGameChanges, applyPlayerChanges, applyRoundChanges,
      applyScoreChanges, applyScoreUpdate, applyScoreDelete, hs, scalarOneOrNone,
      List.foldlM, Bind.bind, Except.bind, pure, Except.pure]

/-- Witness for C9: device `"B"` reaches into device `"D"`'s data on
`fullStore` — it overwrites `"D"`'s game, player and round and
soft-deletes `"D"`'s score, each push reporting success. -/
theorem push_no_ownership_check_witness :
    push fullStore "B" 11 { games := { updated := [updG1] } } 10 =
      ({ fullStore with games := fullStore.games.map fun x => if x.client_id == some updG1.id then updateGameFields updG1 11 x else x }, true, [])
    ∧ push fullStore "B" 11 { game_players := { updated := [updP1] } } 10 =
      ({ fullStore with players := fullStore.players.map fun x => if x.client_id == some updP1.id then updatePlayerFields updP1 11 x else x }, true, [])
    ∧ push fullStore "B" 11 { rounds := { updated := [updR1] } } 10 =
      ({ fullStore with rounds := fullStore.rounds.map fun x => if x.client_id == some updR1.id then updateRoundFields updR1 none 11 x else x }, true, [])
    ∧ push fullStore "B" 11 { scores := { deleted := ["s1"] } } 10 =
      ({ fullStore with scores := fullStore.scores.map fun x => if x.client_id == some "s1" then softDeleteScore 11 x else x }, true, []) := by
  have h := push_no_ownership_check fullStore "D" "B" 10 11 rfl
  exact ⟨h.1 gameG1 updG1 rfl rfl (by decide),
    h.2.2.1 playerP7 gameG1 updP1 rfl (by decide) rfl rfl (by decide),
    h.2.2.2.2.1 roundR1 gameG1 updR1 none rfl (by decide) rfl rfl (by decide) rfl,
    h.2.2.2.2.2.2.2 scoreS1 roundR1 gameG1 "s1" rfl (by decide) rfl (by decide) rfl rfl (by decide)⟩

/-- C1 counterexample: on an empty store, device `"D"` pushes a Game
`created` entry with client identity `"c1"` (accepted, `ok = true`);
the subsequent pull by `"D"` with `since = 0` does NOT return the Game
in the `created` bucket — it is echoed back in `updated` (its stored
client identity is non-null, so the classifier sends it to `updated`). -/
theorem push_created_pull_created_counterexample :
    (push emptyStore "D" 5 { games := { created := [c1Entry (some "Friday") 100 "active" 3] } } 0).2.1 = true
    ∧ (pull (push emptyStore "D" 5 { games := { created := [c1Entry (some "Friday") 100 "active" 3] } } 0).1
        "D" 0 9).1.games.created = []
    ∧ ((pull (push emptyStore "D" 5 { games := { created := [c1Entry (some "Friday") 100 "active" 3] } } 0).1
        "D" 0 9).1.games.updated.map fun d => d.id) = ["c1"] := by
  refine ⟨rfl, rfl, rfl⟩

/-- C1 (amended): after device `D` pushes a Game `created` entry with
client identity `"c1"` into an empty store (accepted with `ok = true`)
and no other writes occur, a subsequent pull by `D` with `since = 0`
returns that Game in the games.`updated` bucket (not `created`), with
its public id equal to `"c1"`, together with the new watermark. -/
theorem push_created_then_pull_echoes_in_updated (device_id : String) (nm : Option String)
    (ts : Int) (stt : String) (sa now1 now2 : Nat) (h1 : 0 < now1) :
    (push emptyStore device_id now1 { games := { created := [c1Entry nm ts stt sa] } } 0).2.1 = true
    ∧ (push emptyStore device_id now1 { games := { created := [c1Entry nm ts stt sa] } } 0).2.2 = []
    ∧ (pull (push emptyStore device_id now1 { games := { created := [c1Entry nm ts stt sa] } } 0).1
        device_id 0 now2).1.games =
      { created := [], updated := [c1Entry nm ts stt sa], deleted := [] }
    ∧ (pull (push emptyStore device_id now1 { games := { created := [c1Entry nm ts stt sa] } } 0).1
        device_id 0 now2).2 = now2 := by
  have hpush : push emptyStore device_id now1
      { games := { created := [c1Entry nm ts stt sa] } } 0 =
      ({ games := [{ id := 0, client_id := some "c1", is_deleted := false, last_modified := now1, created_at := now1, device_id := device_id, name := nm, target_score := ts, status := stt, winner_id := none, started_at := sa, ended_at := none }], players := [], rounds := [], scores := [], nextId := 1 }, true, []) := by
    simp [push, checkConflicts, emptyStore, applyChanges, applyGameChanges, insertGame,
      c1Entry, applyPlayerChanges, applyRoundChanges, applyScoreChanges,
      List.foldlM, Bind.bind, Except.bind, pure, Except.pure]
  refine ⟨by rw [hpush], by rw [hpush], ?_, by rw [hpush]; rfl⟩
  rw [hpush]
  simp [pull, sinceOf, pullGames, gameQuery, classifyGameRecords, gameSyncOfRecord, syncIdOf,
    getDeviceGameIds, getRoundIds, pullPlayers, pullRounds, pullScores, playerQuery, roundQuery,
    scoreQuery, classifyPlayerRecords, classifyRoundRecords, classifyScoreRecords, c1Entry, h1]

/-- Witness for C1 (amended) at device `"D"`, server times 5 and 9. -/
theorem push_created_then_pull_echoes_in_updated_witness :
    (pull (push emptyStore "D" 5 { games := { created := [c1Entry (some "Friday") 100 "active" 3] } } 0).1
        "D" 0 9).1.games =
      { created := [], updated := [c1Entry (some "Friday") 100 "active" 3], deleted := [] } :=
  (push_created_then_pull_echoes_in_updated "D" (some "Friday") 100 "active" 3 5 9 (by decide)).2.2.1

/-- C5: (code bug) the pull path does NOT translate a Game's
`winner_id` to the referenced player's client identity: `_pull_games`
emits the string form of the raw server identity.  At this store the
winner references player 7 whose public identity is `"p1"`, yet the
wire record carries `"7"`. -/
theorem pull_winner_id_not_translated :
    ((pullGames winnerStore "D" 0).updated.map fun d => d.winner_id) = [some "7"]
    ∧ getClientIdForPlayer winnerStore 7 = "p1" := ⟨rfl, rfl⟩

/-! ## Round/score creation helpers for C6 -/

theorem applyRoundCreate_preserves (now : Nat) (d : RoundSync) (st st' : Store)
    (h : applyRoundCreate now d st = Except.ok st') :
    st'.games = st.games ∧ st'.players = st.players := by
  cases h1 : getGameByClientId st d.game_id with
  | error e => simp [applyRoundCreate, h1, Bind.bind, Except.bind] at h
  | ok game? =>
    cases game? with
    | none =>
      simp [applyRoundCreate, h1, Bind.bind, Except.bind] at h
      rw [← h]
      exact ⟨rfl, rfl⟩
    | some game =>
      cases h2 : resolveCaller st d.caller_id with
      | error e => simp [applyRoundCreate, h1, h2, Bind.bind, Except.bind] at h
      | ok c =>
        simp [applyRoundCreate, h1, h2, Bind.bind, Except.bind] at h
        rw [← h]
        exact ⟨rfl, rfl⟩

theorem roundCreatesFold_preserves (now : Nat) (L : List RoundSync) (st st' : Store)
    (h : L.foldlM (fun s d => applyRoundCreate now d s) st = Except.ok st') :
    st'.games = st.games ∧ st'.players = st.players := by
  induction L generalizing st with
  | nil =>
    simp [List.foldlM, pure, Except.pure] at h
    rw [← h]
    exact ⟨rfl, rfl⟩
  | cons d L ih =>
    rw [List.foldlM_cons] at h
    cases h1 : applyRoundCreate now d st with
    | error e => rw [h1] at h; simp [Bind.bind, Except.bind] at h
    | ok s1 =>
      rw [h1] at h
      simp only [Bind.bind, Except.bind] at h
      have hp := applyRoundCreate_preserves now d st s1 h1
      have hq := ih s1 h
      exact ⟨hq.1.trans hp.1, hq.2.trans hp.2⟩

theorem applyRoundChanges_created_only (now : Nat) (L : List RoundSync) (st : Store) :
    applyRoundChanges now { created := L, updated := [], deleted := [] } st
      = L.foldlM (fun s d => applyRoundCreate now d s) st := by
  cases h : L.foldlM (fun s d => applyRoundCreate now d s) st with
  | error e => simp [applyRoundChanges, h, Bind.bind, Except.bind, List.foldlM]
  | ok s => simp [applyRoundChanges, h, Bind.bind, Except.bind, List.foldlM, pure, Except.pure]

/-- C6 (amended): a `created` entry whose required parent or peer
reference is unresolvable is silently skipped while the rest of the
batch is still applied — this holds for a Player's or a Round's
`game_id` and for a Score's `round_id`/`player_id`; a Round's optional
`caller_id`, however, does not cause a skip when unresolvable: the
Round is inserted with a null caller reference. -/
theorem push_skips_unresolvable_refs :
    (∀ (st : Store) (now : Nat) (d : GamePlayerSync),
      st.games.filter (fun x => x.client_id == some d.game_id) = [] →
      applyPlayerCreate now d st = Except.ok st)
    ∧ (∀ (st : Store) (now : Nat) (d : RoundSync),
      st.games.filter (fun x => x.client_id == some d.game_id) = [] →
      applyRoundCreate now d st = Except.ok st)
    ∧ (∀ (st : Store) (now : Nat) (d : RoundSync) (g : Game),
      st.games.filter (fun x => x.client_id == some d.game_id) = [g] →
      resolveCaller st d.caller_id = Except.ok none →
      applyRoundCreate now d st = Except.ok { st with rounds := st.rounds ++ [{ id := st.nextId, client_id := some d.id, is_deleted := false, last_modified := now, created_at := now, game_id := g.id, round_number := d.round_number, caller_id := none }], nextId := st.nextId + 1 })
    ∧ (∀ (st : Store) (now : Nat) (d : ScoreSync) (r? : Option Round) (p? : Option GamePlayer),
      getRoundByClientId st d.round_id = Except.ok r? →
      getPlayerByClientId st d.player_id = Except.ok p? →
      (r? = none ∨ p? = none) →
      applyScoreCreate now d st = Except.ok st)
    ∧ (∀ (st : Store) (now : Nat) (L1 L2 : List RoundSync) (dBad : RoundSync),
      st.games.filter (fun x => x.client_id == some dBad.game_id) = [] →
      applyRoundChanges now { created := L1 ++ dBad :: L2, updated := [], deleted := [] } st
        = applyRoundChanges now { created := L1 ++ L2, updated := [], deleted := [] } st) := by
  have hskip : ∀ (st : Store) (now : Nat) (d : RoundSync),
      st.games.filter (fun x => x.client_id == some d.game_id) = [] →
      applyRoundCreate now d st = Except.ok st := by
    intro st now d h
    simp [applyRoundCreate, getGameByClientId, h, scalarOneOrNone, Bind.bind, Except.bind]
  refine ⟨?_, hskip, ?_, ?_, ?_⟩
  · intro st now d h
    simp [applyPlayerCreate, getGameByClientId, h, scalarOneOrNone, Bind.bind, Except.bind]
  · intro st now d g hg hc
    simp [applyRoundCreate, getGameByClientId, hg, hc, scalarOneOrNone, Bind.bind, Except.bind]
  · intro st now d r? p? hr hp hnone
    rcases hnone with h | h
    · subst h
      simp [applyScoreCreate, hr, hp, Bind.bind, Except.bind]
    · subst h
      cases r? <;> simp [applyScoreCreate, hr, hp, Bind.bind, Except.bind]
  · intro st now L1 L2 dBad hbad
    rw [applyRoundChanges_created_only, applyRoundChanges_created_only,
      List.foldlM_append, List.foldlM_append]
    cases hf : L1.foldlM (fun s d => applyRoundCreate now d s) st with
    | error e => simp [Bind.bind, Except.bind]
    | ok s1 =>
      have hpre := roundCreatesFold_preserves now L1 st s1 hf
      have hstep : applyRoundCreate now dBad s1 = Except.ok s1 := by
        apply hskip
        rw [hpre.1, hbad]
      simp [Bind.bind, Except.bind, List.foldlM_cons, hstep]

/-- Witness for C6: at `singleGameStore`, a Round entry whose
`game_id` `"nope"` is unresolvable is dropped from the batch. -/
theorem push_skips_unresolvable_refs_witness :
    applyRoundChanges 11 { created := [{ id := "bad", game_id := "nope", round_number := 2, caller_id := none, created_at := 3 }], updated := [], deleted := [] } singleGameStore
      = applyRoundChanges 11 { created := [], updated := [], deleted := [] } singleGameStore :=
  push_skips_unresolvable_refs.2.2.2.2 singleGameStore 11 [] []
    { id := "bad", game_id := "nope", round_number := 2, caller_id := none, created_at := 3 } rfl

/-- C6 counterexample: a Round `created` entry with resolvable
`game_id` `"g1"` but unresolvable `caller_id` `"ghost"` is NOT skipped:
the push succeeds and the Round is inserted, with a null caller. -/
theorem round_unresolvable_caller_counterexample :
    getPlayerByClientId singleGameStore "ghost" = Except.ok none
    ∧ push singleGameStore "D" 11 { rounds := { created := [ghostRound] } } 10 =
      ({ games := [gameG1], players := [], rounds := [{ id := 2, client_id := some "r1", is_deleted := false, last_modified := 11, created_at := 11, game_id := 1, round_number := 1, caller_id := none }], scores := [], nextId := 3 }, true, []) :=
  ⟨rfl, rfl⟩

/-- C7 counterexample: the same push batch (a Round `created` entry
reusing client identity `"r1"`) applied twice, both applications
passing the conflict gate, does NOT leave the store as after one
application: the second push inserts a duplicate Round with the same
client identity. -/
theorem push_retry_counterexample :
    (push singleGameStore "D" 11 { rounds := { created := [retryRound] } } 10).2.1 = true
    ∧ (push (push singleGameStore "D" 11 { rounds := { created := [retryRound] } } 10).1
        "D" 11 { rounds := { created := [retryRound] } } 10).2.1 = true
    ∧ ((push singleGameStore "D" 11 { rounds := { created := [retryRound] } } 10).1.rounds.filter
        fun r => r.client_id == some "r1").length = 1
    ∧ ((push (push singleGameStore "D" 11 { rounds := { created := [retryRound] } } 10).1
        "D" 11 { rounds := { created := [retryRound] } } 10).1.rounds.filter
        fun r => r.client_id == some "r1").length = 2
    ∧ (push (push singleGameStore "D" 11 { rounds := { created := [retryRound] } } 10).1
        "D" 11 { rounds := { created := [retryRound] } } 10).1
      ≠ (push singleGameStore "D" 11 { rounds := { created := [retryRound] } } 10).1 :=
  ⟨rfl, rfl, rfl, rfl, by decide⟩

/-- C3 (amended): the conflict gate fires exactly when some Game owned
by the device has `last_modified` strictly greater than
`last_pulled_at`; when it fires, push returns `ok = false` with the
single conflict error and attempts no writes; when it does not fire,
application is attempted — committing with `ok = true` and no errors,
or, on a store failure, rolling back (store unchanged) with that
failure as the sole error. -/
theorem push_conflict_gate (st : Store) (device_id : String) (now : Nat)
    (ch : SyncChanges) (last_pulled_at : Nat) :
    (checkConflicts st device_id last_pulled_at = true
      ↔ ∃ g ∈ st.games, g.device_id = device_id ∧ last_pulled_at < g.last_modified)
    ∧ (checkConflicts st device_id last_pulled_at = true →
      push st device_id now ch last_pulled_at =
        (st, false, ["Conflict detected. Please pull first."]))
    ∧ (checkConflicts st device_id last_pulled_at = false →
      ∀ st' : Store, applyChanges device_id now ch st = Except.ok st' →
      push st device_id now ch last_pulled_at = (st', true, []))
    ∧ (checkConflicts st device_id last_pulled_at = false →
      ∀ e : String, applyChanges device_id now ch st = Except.error e →
      push st device_id now ch last_pulled_at = (st, false, [e])) := by
  refine ⟨?_, ?_, ?_, ?_⟩
  · constructor
    · intro h
      by_contra hno
      push_neg at hno
      have : st.games.filter
          (fun g => g.device_id == device_id && decide (last_pulled_at < g.last_modified)) = [] := by
        refine List.filter_eq_nil_iff.mpr (fun g hgm => ?_)
        simp only [Bool.and_eq_true, beq_iff_eq, decide_eq_true_eq, not_and]
        intro hdev
        exact fun hlt => absurd hlt (by simpa [hdev] using hno g hgm)
      simp [checkConflicts, this] at h
    · rintro ⟨g, hgm, hdev, hlt⟩
      have hmem : g ∈ st.games.filter
          (fun x => x.device_id == device_id && decide (last_pulled_at < x.last_modified)) := by
        refine List.mem_filter.mpr ⟨hgm, ?_⟩
        simp [hdev, hlt]
      unfold checkConflicts
      cases hfe : st.games.filter
          (fun x => x.device_id == device_id && decide (last_pulled_at < x.last_modified)) with
      | nil => rw [hfe] at hmem; simp at hmem
      | cons a t => simp
  · intro h
    simp [push, h]
  · intro h st' happ
    simp [push, h, happ]
  · intro h e happ
    simp [push, h, happ]

/-- Witness for C3: at `singleGameStore` (one game of device `"D"`
modified at time 5) a push with stale watermark 3 is rejected with the
single conflict error and no writes. -/
theorem push_conflict_gate_witness :
    push singleGameStore "D" 9 {} 3 =
      (singleGameStore, false, ["Conflict detected. Please pull first."]) :=
  (push_conflict_gate singleGameStore "D" 9 {} 3).2.1 rfl

/-- C3 counterexample: on `dupStore` (no game of device `"A"` modified
after watermark 10, so no conflict) the push still returns `ok = false`
with exactly one error and performs no writes — the store-failure path —
so `ok=false` with one error and no writes does not imply the conflict
condition, refuting the claimed equivalence. -/
theorem push_conflict_gate_counterexample :
    checkConflicts dupStore "A" 10 = false
    ∧ (dupStore.games.filter fun g => g.device_id == "A" && decide ((10 : Nat) < g.last_modified)) = []
    ∧ push dupStore "A" 11 { games := { updated := [updX] } } 10
        = (dupStore, false, ["Multiple rows were found when exactly one or none was required"]) :=
  ⟨rfl, rfl, rfl⟩

/-! ## Generic lemmas about overwrite steps, folds and chains (for C7) -/

theorem filter_map_invariant {R : Type} (q : R → Bool) (Φ : R → R)
    (hq : ∀ x, q (Φ x) = q x) (l : List R) :
    (l.map Φ).filter q = (l.filter q).map Φ := by
  rw [List.filter_map]
  congr 1
  exact List.filter_congr (fun x _ => by simp [Function.comp, hq])

theorem overwriteChain_no_op {E R : Type} (pred : E → R → Bool) (ov : E → R → R)
    (es : List E) (x : R) (h : ∀ e ∈ es, pred e x = true → ov e x = x) :
    overwriteChain pred ov es x = x := by
  induction es with
  | nil => rfl
  | cons a es ih =>
    show overwriteChain pred ov es (if pred a x then ov a x else x) = x
    by_cases ha : pred a x = true
    · rw [if_pos ha, h a (List.mem_cons_self a es) ha]
      exact ih (fun e he hx => h e (List.mem_cons_of_mem a he) hx)
    · rw [if_neg ha]
      exact ih (fun e he hx => h e (List.mem_cons_of_mem a he) hx)

theorem overwriteChain_single {E R : Type} (keyOf : R → Option String) (idOf : E → String)
    (ov : E → R → R) (P : R → Prop) (es : List E) (e : E) (x : R)
    (hmem : e ∈ es) (hx : keyOf x = some (idOf e))
    (hcoh : ∀ e1 ∈ es, idOf e1 = idOf e → ∀ z, ov e1 z = ov e z)
    (hkey : ∀ e1 y, keyOf (ov e1 y) = keyOf y)
    (hPov : ∀ z, P (ov e z))
    (hfix : ∀ z, P z → ov e z = z) :
    overwriteChain (fun e1 y => keyOf y == some (idOf e1)) ov es x = ov e x := by
  induction es with
  | nil => exact absurd hmem (List.not_mem_nil e)
  | cons a es ih =>
    show overwriteChain _ ov es (if keyOf x == some (idOf a) then ov a x else x) = ov e x
    by_cases ha : (keyOf x == some (idOf a)) = true
    · rw [if_pos ha]
      have haid : idOf a = idOf e := by
        have h1 : keyOf x = some (idOf a) := by simpa using ha
        rw [hx] at h1
        exact (Option.some.injEq ..).mp h1.symm
      rw [hcoh a (List.mem_cons_self a es) haid x]
      apply overwriteChain_no_op
      intro e1 he1 hp
      have hkey1 : keyOf (ov e x) = some (idOf e) := by rw [hkey]; exact hx
      have he1id : idOf e1 = idOf e := by
        have h2 : keyOf (ov e x) = some (idOf e1) := by simpa using hp
        rw [hkey1] at h2
        exact ((Option.some.injEq ..).mp h2).symm
      rw [hcoh e1 (List.mem_cons_of_mem a he1) he1id, hfix _ (hPov x)]
    · rw [if_neg ha]
      have hme : e ∈ es := by
        rcases List.mem_cons.mp hmem with heq | hme
        · exfalso
          apply ha
          rw [← heq, hx]
          simp
        · exact hme
      exact ih hme (fun e1 he1 hid => hcoh e1 (List.mem_cons_of_mem a he1) hid)

theorem overwriteChain_preserves {E R : Type} (pred : E → R → Bool) (ov : E → R → R)
    (P : R → Prop) (es : List E) (x : R)
    (hov : ∀ e y, P y → P (ov e y)) (hx : P x) :
    P (overwriteChain pred ov es x) := by
  induction es generalizing x with
  | nil => exact hx
  | cons a es ih =>
    show P (overwriteChain pred ov es (if pred a x then ov a x else x))
    by_cases ha : pred a x = true
    · rw [if_pos ha]
      exact ih _ (hov a x hx)
    · rw [if_neg ha]
      exact ih _ hx

/-- Central simulation lemma: if an overwrite loop succeeded on
`l0.map Φ`, then the loop with a second family of overwrites succeeds
on `l0.map Φ'` (any predicate-preserving `Φ`, `Φ'`) and acts as the
pointwise chain. -/
theorem overwriteFold_map_ok {E R : Type} (pred : E → R → Bool) (ov ov' : E → R → R)
    (hpres : ∀ e e' x, pred e (ov e' x) = pred e x)
    (hpres' : ∀ e e' x, pred e (ov' e' x) = pred e x)
    (es : List E) (l0 : List R) :
    ∀ (Φ Φ' : R → R), (∀ e x, pred e (Φ x) = pred e x) → (∀ e x, pred e (Φ' x) = pred e x) →
    ∀ (l1 : List R), overwriteFold pred ov es (l0.map Φ) = Except.ok l1 →
    overwriteFold pred ov' es (l0.map Φ') =
      Except.ok ((l0.map Φ').map (overwriteChain pred ov' es)) := by
  induction es with
  | nil =>
    intro Φ Φ' _ _ l1 _
    show Except.ok (l0.map Φ') = _
    rw [List.map_map]
    exact congrArg Except.ok (List.map_congr_left fun x _ => rfl)
  | cons e es ih =>
    intro Φ Φ' hΦ hΦ' l1 h
    have hfilΦ : (l0.map Φ).filter (pred e) = (l0.filter (pred e)).map Φ :=
      filter_map_invariant _ _ (hΦ e) l0
    have hfilΦ' : (l0.map Φ').filter (pred e) = (l0.filter (pred e)).map Φ' :=
      filter_map_invariant _ _ (hΦ' e) l0
    have hchaincons : ∀ x : R, overwriteChain pred ov' (e :: es) x
        = overwriteChain pred ov' es (if pred e x then ov' e x else x) := fun x => rfl
    cases hn : l0.filter (pred e) with
    | nil =>
      have h1 : overwriteStep pred ov e (l0.map Φ) = Except.ok (l0.map Φ) := by
        rw [hn] at hfilΦ
        simp [overwriteStep, hfilΦ, scalarOneOrNone, Bind.bind, Except.bind]
      have h2 : overwriteStep pred ov' e (l0.map Φ') = Except.ok (l0.map Φ') := by
        rw [hn] at hfilΦ'
        simp [overwriteStep, hfilΦ', scalarOneOrNone, Bind.bind, Except.bind]
      simp only [overwriteFold, List.foldlM_cons] at h ⊢
      rw [h1] at h
      rw [h2]
      simp only [Bind.bind, Except.bind] at h ⊢
      have hres := ih Φ Φ' hΦ hΦ' l1 h
      simp only [overwriteFold] at hres
      rw [hres]
      congr 1
      refine List.map_congr_left (fun x hxmem => ?_)
      obtain ⟨y, hy, rfl⟩ := List.mem_map.mp hxmem
      have hpredy : pred e (Φ' y) = false := by
        rw [hΦ']
        have := List.filter_eq_nil_iff.mp hn y hy
        exact Bool.eq_false_iff.mpr this
      rw [hchaincons, if_neg (by rw [hpredy]; exact Bool.false_ne_true)]
    | cons a t =>
      cases t with
      | nil =>
        have h1 : overwriteStep pred ov e (l0.map Φ)
            = Except.ok (l0.map (fun x => if pred e (Φ x) then ov e (Φ x) else Φ x)) := by
          rw [hn] at hfilΦ
          simp [overwriteStep, hfilΦ, scalarOneOrNone, Bind.bind, Except.bind, List.map_map,
            Function.comp]
        have h2 : overwriteStep pred ov' e (l0.map Φ')
            = Except.ok (l0.map (fun x => if pred e (Φ' x) then ov' e (Φ' x) else Φ' x)) := by
          rw [hn] at hfilΦ'
          simp [overwriteStep, hfilΦ', scalarOneOrNone, Bind.bind, Except.bind, List.map_map,
            Function.comp]
        simp only [overwriteFold, List.foldlM_cons] at h ⊢
        rw [h1] at h
        rw [h2]
        simp only [Bind.bind, Except.bind] at h ⊢
        have hΦ2 : ∀ e1 x, pred e1 ((fun x => if pred e (Φ x) then ov e (Φ x) else Φ x) x)
            = pred e1 x := by
          intro e1 x
          by_cases hpe : pred e (Φ x) = true
          · simp [hpe, hpres, hΦ]
          · simp [hpe, hΦ]
        have hΦ2' : ∀ e1 x, pred e1 ((fun x => if pred e (Φ' x) then ov' e (Φ' x) else Φ' x) x)
            = pred e1 x := by
          intro e1 x
          by_cases hpe : pred e (Φ' x) = true
          · simp [hpe, hpres', hΦ']
          · simp [hpe, hΦ']
        have hres := ih _ _ hΦ2 hΦ2' l1 h
        simp only [overwriteFold] at hres
        rw [hres]
        congr 1
        rw [List.map_map, List.map_map]
        refine List.map_congr_left (fun y _ => ?_)
        show overwriteChain pred ov' es (if pred e (Φ' y) then ov' e (Φ' y) else Φ' y)
          = overwriteChain pred ov' (e :: es) (Φ' y)
        rw [hchaincons]
      | cons b t2 =>
        exfalso
        have h1 : overwriteStep pred ov e (l0.map Φ)
            = Except.error "Multiple rows were found when exactly one or none was required" := by
          rw [hn] at hfilΦ
          simp [overwriteStep, hfilΦ, scalarOneOrNone, Bind.bind, Except.bind]
        simp only [overwriteFold, List.foldlM_cons] at h
        rw [h1] at h
        simp [Bind.bind, Except.bind] at h

/-- Shape of a successful overwrite loop: it maps the pointwise chain
over the list. -/
theorem overwriteFold_ok_shape {E R : Type} (pred : E → R → Bool) (ov : E → R → R)
    (hpres : ∀ e e' x, pred e (ov e' x) = pred e x)
    (es : List E) (l l1 : List R)
    (h : overwriteFold pred ov es l = Except.ok l1) :
    l1 = l.map (overwriteChain pred ov es) := by
  have hid : ∀ e (x : R), pred e ((fun y => y) x) = pred e x := fun e x => rfl
  have hmap : l.map (fun y => y) = l := List.map_id' l
  have := overwriteFold_map_ok pred ov ov hpres hpres es l (fun y => y) (fun y => y)
    hid hid l1 (by rw [hmap]; exact h)
  rw [hmap] at this
  rw [h] at this
  exact (Except.ok.injEq ..).mp this
/-- Lifting a list-level loop to the store level: if every store-level
step acts on one table component through a list-level step, so does the
whole loop. -/
theorem foldlM_store_lift {E R : Type} (stepS : E → Store → Except String Store)
    (stepL : E → List R → Except String (List R))
    (get : Store → List R) (set : Store → List R → Store)
    (hset_get : ∀ st, set st (get st) = st)
    (hget_set : ∀ st l, get (set st l) = l)
    (hset_set : ∀ st l l', set (set st l) l' = set st l')
    (hstep : ∀ e st, stepS e st = (stepL e (get st)).map (set st)) :
    ∀ (es : List E) (st : Store), es.foldlM (fun s e => stepS e s) st
      = (es.foldlM (fun acc e => stepL e acc) (get st)).map (set st) := by
  intro es
  induction es with
  | nil =>
    intro st
    simp [List.foldlM, Except.map, pure, Except.pure, hset_get]
  | cons e es ih =>
    intro st
    rw [List.foldlM_cons, List.foldlM_cons]
    show stepS e st >>= _ = _
    rw [hstep e st]
    cases hl : stepL e (get st) with
    | error err => simp [Except.map, Bind.bind, Except.bind]
    | ok l =>
      simp only [Except.map, Bind.bind, Except.bind]
      rw [ih (set st l), hget_set]
      cases h2 : es.foldlM (fun acc e => stepL e acc) l <;> simp [Except.map, hset_set]

/-! ## Games table: net-change facts and retry idempotence (C7) -/

theorem updateGameFields_client_id (d : GameSync) (t : Nat) (g : Game) :
    (updateGameFields d t g).client_id = g.client_id := by
  unfold updateGameFields
  split <;> rfl

theorem softDeleteGame_client_id (t : Nat) (g : Game) :
    (softDeleteGame t g).client_id = g.client_id := by
  unfold softDeleteGame
  split <;> rfl

theorem updateGameFields_applied (d : GameSync) (t : Nat) (g : Game) :
    (updateGameFields d t g).name = d.name ∧ (updateGameFields d t g).target_score = d.target_score
      ∧ (updateGameFields d t g).status = d.status ∧ (updateGameFields d t g).ended_at = d.ended_at := by
  unfold updateGameFields
  by_cases h : g.name = d.name ∧ g.target_score = d.target_score ∧ g.status = d.status
      ∧ g.ended_at = d.ended_at
  · rw [if_pos h]
    exact ⟨h.1, h.2.1, h.2.2.1, h.2.2.2⟩
  · rw [if_neg h]
    exact ⟨rfl, rfl, rfl, rfl⟩

theorem updateGameFields_fix (d : GameSync) (t : Nat) (g : Game)
    (h : g.name = d.name ∧ g.target_score = d.target_score ∧ g.status = d.status
      ∧ g.ended_at = d.ended_at) :
    updateGameFields d t g = g := by
  unfold updateGameFields
  rw [if_pos h]

theorem softDeleteGame_deleted (t : Nat) (g : Game) : (softDeleteGame t g).is_deleted = true := by
  unfold softDeleteGame
  by_cases h : g.is_deleted = true
  · rw [if_pos h]
    exact h
  · rw [if_neg h]

theorem softDeleteGame_fix (t : Nat) (g : Game) (h : g.is_deleted = true) :
    softDeleteGame t g = g := by
  unfold softDeleteGame
  rw [if_pos h]

theorem softDeleteGame_frame (t : Nat) (g : Game) :
    (softDeleteGame t g).name = g.name ∧ (softDeleteGame t g).target_score = g.target_score
      ∧ (softDeleteGame t g).status = g.status ∧ (softDeleteGame t g).ended_at = g.ended_at := by
  unfold softDeleteGame
  split <;> exact ⟨rfl, rfl, rfl, rfl⟩

theorem applyGameUpdate_step_eq (now : Nat) (d : GameSync) (st : Store) :
    applyGameUpdate now d st
      = (overwriteStep (fun (e : GameSync) (x : Game) => x.client_id == some e.id)
          (fun (e : GameSync) (x : Game) => updateGameFields e now x) d st.games).map
          (fun l => { st with games := l }) := by
  cases hsc : scalarOneOrNone (st.games.filter (fun g => g.client_id == some d.id)) with
  | error e =>
    simp [applyGameUpdate, overwriteStep, hsc, Bind.bind, Except.bind, Except.map]
  | ok o =>
    cases o with
    | none =>
      simp only [applyGameUpdate, overwriteStep, hsc, Bind.bind, Except.bind, Except.map]
    | some g =>
      simp only [applyGameUpdate, overwriteStep, hsc, Bind.bind, Except.bind, Except.map]

theorem applyGameDelete_step_eq (now : Nat) (c : String) (st : Store) :
    applyGameDelete now c st
      = (overwriteStep (fun (c1 : String) (x : Game) => x.client_id == some c1)
          (fun (_ : String) (x : Game) => softDeleteGame now x) c st.games).map
          (fun l => { st with games := l }) := by
  cases hsc : scalarOneOrNone (st.games.filter (fun g => g.client_id == some c)) with
  | error e =>
    simp [applyGameDelete, overwriteStep, hsc, Bind.bind, Except.bind, Except.map]
  | ok o =>
    cases o with
    | none =>
      simp only [applyGameDelete, overwriteStep, hsc, Bind.bind, Except.bind, Except.map]
    | some g =>
      simp only [applyGameDelete, overwriteStep, hsc, Bind.bind, Except.bind, Except.map]

theorem applyGameChanges_noCreates_eq (dev : String) (now : Nat) (u : List GameSync)
    (dl : List String) (st : Store) :
    applyGameChanges dev now { created := [], updated := u, deleted := dl } st
      = ((overwriteFold (fun (e : GameSync) (x : Game) => x.client_id == some e.id)
            (fun (e : GameSync) (x : Game) => updateGameFields e now x) u st.games) >>=
          overwriteFold (fun (c1 : String) (x : Game) => x.client_id == some c1)
            (fun (_ : String) (x : Game) => softDeleteGame now x) dl).map
          (fun l => { st with games := l }) := by
  have hu := foldlM_store_lift (fun d s => applyGameUpdate now d s)
    (fun d l => overwriteStep (fun (e : GameSync) (x : Game) => x.client_id == some e.id)
      (fun (e : GameSync) (x : Game) => updateGameFields e now x) d l)
    (fun s => s.games) (fun s l => { s with games := l })
    (fun s => rfl) (fun s l => rfl) (fun s l l' => rfl)
    (fun d s => applyGameUpdate_step_eq now d s) u
  have hd := foldlM_store_lift (fun c s => applyGameDelete now c s)
    (fun c l => overwriteStep (fun (c1 : String) (x : Game) => x.client_id == some c1)
      (fun (_ : String) (x : Game) => softDeleteGame now x) c l)
    (fun s => s.games) (fun s l => { s with games := l })
    (fun s => rfl) (fun s l => rfl) (fun s l l' => rfl)
    (fun c s => applyGameDelete_step_eq now c s) dl
  show (do
    let st1 := ([] : List GameSync).foldl (fun s d => insertGame dev now d s) st
    let st2 ← u.foldlM (fun s d => applyGameUpdate now d s) st1
    dl.foldlM (fun s c => applyGameDelete now c s) st2) = _
  simp only [List.foldl_nil]
  rw [hu st]
  cases h1 : overwriteFold (fun (e : GameSync) (x : Game) => x.client_id == some e.id)
      (fun (e : GameSync) (x : Game) => updateGameFields e now x) u st.games with
  | error e =>
    simp only [overwriteFold] at h1
    rw [h1]
    simp [Except.map, Bind.bind, Except.bind]
  | ok gu =>
    simp only [overwriteFold] at h1
    rw [h1]
    simp only [Except.map, Bind.bind, Except.bind]
    rw [hd { st with games := gu }]
    show (overwriteFold _ _ dl gu).map _ = _
    cases h2 : overwriteFold (fun (c1 : String) (x : Game) => x.client_id == some c1)
        (fun (_ : String) (x : Game) => softDeleteGame now x) dl gu <;>
      simp [h2, Except.map, Bind.bind, Except.bind]

/-- Generic retry idempotence of one table phase (`updated` loop then
`deleted` loop): under net-change overwrite semantics, re-running both
loops (at any later server time, i.e. with a second family of
overwrites) on the result of a successful first run returns that result
unchanged. -/
theorem pipeline_idem {EU R : Type} (keyOf : R → Option String) (idOf : EU → String)
    (ovU ovU' : EU → R → R) (delOv delOv' : R → R)
    (PU : EU → R → Prop) (deletedOf : R → Bool)
    (hkeyU : ∀ e x, keyOf (ovU e x) = keyOf x)
    (hkeyU' : ∀ e x, keyOf (ovU' e x) = keyOf x)
    (hkeyD : ∀ x, keyOf (delOv x) = keyOf x)
    (hkeyD' : ∀ x, keyOf (delOv' x) = keyOf x)
    (hPUov : ∀ e z, PU e (ovU e z))
    (hPUfix : ∀ e z, PU e z → ovU e z = z)
    (hPUfix' : ∀ e z, PU e z → ovU' e z = z)
    (hPUdel : ∀ e z, PU e z → PU e (delOv z))
    (hdelov : ∀ z, deletedOf (delOv z) = true)
    (hdelfix : ∀ z, deletedOf z = true → delOv z = z)
    (hdelfix' : ∀ z, deletedOf z = true → delOv' z = z)
    (u : List EU) (dl : List String)
    (hcoh : ∀ e1 ∈ u, ∀ e2 ∈ u, idOf e1 = idOf e2 → ∀ z, ovU e1 z = ovU e2 z)
    (l lu l1 : List R)
    (hu : overwriteFold (fun e x => keyOf x == some (idOf e)) ovU u l = Except.ok lu)
    (hd : overwriteFold (fun (c : String) x => keyOf x == some c) (fun _ x => delOv x) dl lu
      = Except.ok l1) :
    overwriteFold (fun e x => keyOf x == some (idOf e)) ovU' u l1 = Except.ok l1
    ∧ overwriteFold (fun (c : String) x => keyOf x == some c) (fun _ x => delOv' x) dl l1
      = Except.ok l1 := by
  have hpresU : ∀ e e' x, ((keyOf (ovU e' x)) == some (idOf e)) = (keyOf x == some (idOf e)) :=
    fun e e' x => by rw [hkeyU]
  have hpresU' : ∀ e e' x, ((keyOf (ovU' e' x)) == some (idOf e)) = (keyOf x == some (idOf e)) :=
    fun e e' x => by rw [hkeyU']
  have hpresD : ∀ (c : String) (c' : String) x, ((keyOf (delOv x)) == some c) = (keyOf x == some c) :=
    fun c c' x => by rw [hkeyD]
  have hpresD' : ∀ (c : String) (c' : String) x, ((keyOf (delOv' x)) == some c) = (keyOf x == some c) :=
    fun c c' x => by rw [hkeyD']
  have shapeU : lu = l.map (overwriteChain (fun e x => keyOf x == some (idOf e)) ovU u) :=
    overwriteFold_ok_shape _ ovU hpresU u l lu hu
  have shapeD : l1 = lu.map (overwriteChain (fun (c : String) x => keyOf x == some c)
      (fun _ x => delOv x) dl) :=
    overwriteFold_ok_shape _ _ hpresD dl lu l1 hd
  have hkeyChainU : ∀ x, keyOf (overwriteChain (fun e x => keyOf x == some (idOf e)) ovU u x)
      = keyOf x := fun x =>
    overwriteChain_preserves _ ovU (fun z => keyOf z = keyOf x) u x
      (fun e y hy => by show keyOf (ovU e y) = keyOf x; rw [hkeyU]; exact hy) rfl
  have hkeyChainD : ∀ x, keyOf (overwriteChain (fun (c : String) x => keyOf x == some c)
      (fun _ x => delOv x) dl x) = keyOf x := fun x =>
    overwriteChain_preserves _ _ (fun z => keyOf z = keyOf x) dl x
      (fun c y hy => by show keyOf (delOv y) = keyOf x; rw [hkeyD]; exact hy) rfl
  have hl1 : l1 = l.map (fun x =>
      overwriteChain (fun (c : String) x => keyOf x == some c) (fun _ x => delOv x) dl
        (overwriteChain (fun e x => keyOf x == some (idOf e)) ovU u x)) := by
    rw [shapeD, shapeU, List.map_map]
    rfl
  have hkeyΨ : ∀ x, keyOf (overwriteChain (fun (c : String) x => keyOf x == some c)
      (fun _ x => delOv x) dl
      (overwriteChain (fun e x => keyOf x == some (idOf e)) ovU u x)) = keyOf x := by
    intro x
    rw [hkeyChainD, hkeyChainU]
  have habsU : ∀ x, overwriteChain (fun e x => keyOf x == some (idOf e)) ovU' u
      (overwriteChain (fun (c : String) x => keyOf x == some c) (fun _ x => delOv x) dl
        (overwriteChain (fun e x => keyOf x == some (idOf e)) ovU u x))
      = overwriteChain (fun (c : String) x => keyOf x == some c) (fun _ x => delOv x) dl
        (overwriteChain (fun e x => keyOf x == some (idOf e)) ovU u x) := by
    intro x
    apply overwriteChain_no_op
    intro e he hp
    have hkx : keyOf x = some (idOf e) := by
      have h1 : keyOf (overwriteChain (fun (c : String) x => keyOf x == some c)
          (fun _ x => delOv x) dl (overwriteChain (fun e x => keyOf x == some (idOf e)) ovU u x))
          = some (idOf e) := by simpa using hp
      rw [hkeyChainD, hkeyChainU] at h1
      exact h1
    have hsingle : overwriteChain (fun e x => keyOf x == some (idOf e)) ovU u x = ovU e x :=
      overwriteChain_single keyOf idOf ovU (PU e) u e x he hkx
        (fun e1 he1 hid z => hcoh e1 he1 e he hid z)
        hkeyU (fun z => hPUov e z) (fun z hz => hPUfix e z hz)
    have hPchain : PU e (overwriteChain (fun (c : String) x => keyOf x == some c)
        (fun _ x => delOv x) dl (overwriteChain (fun e x => keyOf x == some (idOf e)) ovU u x)) := by
      apply overwriteChain_preserves _ _ (PU e) dl
      · intro c y hy
        exact hPUdel e y hy
      · rw [hsingle]
        exact hPUov e x
    exact hPUfix' e _ hPchain
  have habsD : ∀ x, overwriteChain (fun (c : String) x => keyOf x == some c) (fun _ x => delOv' x) dl
      (overwriteChain (fun (c : String) x => keyOf x == some c) (fun _ x => delOv x) dl
        (overwriteChain (fun e x => keyOf x == some (idOf e)) ovU u x))
      = overwriteChain (fun (c : String) x => keyOf x == some c) (fun _ x => delOv x) dl
        (overwriteChain (fun e x => keyOf x == some (idOf e)) ovU u x) := by
    intro x
    apply overwriteChain_no_op
    intro c hc hp
    have hkx : keyOf (overwriteChain (fun e x => keyOf x == some (idOf e)) ovU u x) = some c := by
      have h1 : keyOf (overwriteChain (fun (c : String) x => keyOf x == some c)
          (fun _ x => delOv x) dl (overwriteChain (fun e x => keyOf x == some (idOf e)) ovU u x))
          = some c := by simpa using hp
      rw [hkeyChainD] at h1
      exact h1
    have hsingleD : overwriteChain (fun (c : String) x => keyOf x == some c)
        (fun _ x => delOv x) dl (overwriteChain (fun e x => keyOf x == some (idOf e)) ovU u x)
        = delOv (overwriteChain (fun e x => keyOf x == some (idOf e)) ovU u x) :=
      overwriteChain_single keyOf (fun c => c) (fun _ x => delOv x)
        (fun z => deletedOf z = true) dl c _ hc hkx
        (fun c1 _ _ z => rfl) (fun c1 y => hkeyD y) (fun z => hdelov z)
        (fun z hz => hdelfix z hz)
    have hdel1 : deletedOf (overwriteChain (fun (c : String) x => keyOf x == some c)
        (fun _ x => delOv x) dl (overwriteChain (fun e x => keyOf x == some (idOf e)) ovU u x))
        = true := by
      rw [hsingleD]
      exact hdelov _
    exact hdelfix' _ hdel1
  constructor
  · have hKU := overwriteFold_map_ok (fun e x => keyOf x == some (idOf e)) ovU ovU'
      hpresU hpresU' u l (fun y => y)
      (fun x => overwriteChain (fun (c : String) x => keyOf x == some c) (fun _ x => delOv x) dl
        (overwriteChain (fun e x => keyOf x == some (idOf e)) ovU u x))
      (fun e x => rfl) (fun e x => by simp only [hkeyΨ x]) lu
      (by rw [List.map_id']; exact hu)
    rw [← hl1] at hKU
    rw [hKU]
    congr 1
    rw [hl1, List.map_map]
    exact List.map_congr_left (fun x _ => habsU x)
  · have hKD := overwriteFold_map_ok (fun (c : String) x => keyOf x == some c)
      (fun _ x => delOv x) (fun _ x => delOv' x) hpresD hpresD' dl l
      (overwriteChain (fun e x => keyOf x == some (idOf e)) ovU u)
      (fun x => overwriteChain (fun (c : String) x => keyOf x == some c) (fun _ x => delOv x) dl
        (overwriteChain (fun e x => keyOf x == some (idOf e)) ovU u x))
      (fun c x => by simp only [hkeyChainU x]) (fun c x => by simp only [hkeyΨ x]) l1
      (by rw [← shapeU]; exact hd)
    rw [← hl1] at hKD
    rw [hKD]
    congr 1
    rw [hl1, List.map_map]
    exact List.map_congr_left (fun x _ => habsD x)

theorem gamePhase_idem (dev dev' : String) (now now' : Nat) (u : List GameSync)
    (dl : List String) (st st1 : Store)
    (hcoh : ∀ d1 ∈ u, ∀ d2 ∈ u, d1.id = d2.id → d1 = d2)
    (h : applyGameChanges dev now { created := [], updated := u, deleted := dl } st
      = Except.ok st1) :
    (∀ s1 : Store, s1.games = st1.games →
      applyGameChanges dev' now' { created := [], updated := u, deleted := dl } s1 = Except.ok s1)
    ∧ st1.players = st.players ∧ st1.rounds = st.rounds ∧ st1.scores = st.scores
    ∧ st1.nextId = st.nextId := by
  rw [applyGameChanges_noCreates_eq] at h
  cases hu : overwriteFold (fun (e : GameSync) (x : Game) => x.client_id == some e.id)
      (fun (e : GameSync) (x : Game) => updateGameFields e now x) u st.games with
  | error e =>
    rw [hu] at h
    simp [Bind.bind, Except.bind, Except.map] at h
  | ok gu =>
    rw [hu] at h
    simp only [Bind.bind, Except.bind] at h
    cases hd : overwriteFold (fun (c1 : String) (x : Game) => x.client_id == some c1)
        (fun (_ : String) (x : Game) => softDeleteGame now x) dl gu with
    | error e =>
      rw [hd] at h
      simp [Except.map] at h
    | ok g1 =>
      rw [hd] at h
      simp only [Except.map] at h
      have hst1 : st1 = { st with games := g1 } := by
        have := (Except.ok.injEq ..).mp h
        exact this.symm
      have hpi := pipeline_idem (fun g : Game => g.client_id) (fun d : GameSync => d.id)
        (fun e x => updateGameFields e now x) (fun e x => updateGameFields e now' x)
        (softDeleteGame now) (softDeleteGame now')
        (fun e z => z.name = e.name ∧ z.target_score = e.target_score ∧ z.status = e.status
          ∧ z.ended_at = e.ended_at)
        (fun z => z.is_deleted)
        (fun e x => updateGameFields_client_id e now x)
        (fun e x => updateGameFields_client_id e now' x)
        (fun x => softDeleteGame_client_id now x)
        (fun x => softDeleteGame_client_id now' x)
        (fun e z => updateGameFields_applied e now z)
        (fun e z hz => updateGameFields_fix e now z hz)
        (fun e z hz => updateGameFields_fix e now' z hz)
        (fun e z hz => by
          obtain ⟨h1, h2, h3, h4⟩ := (softDeleteGame_frame now z)
          exact ⟨h1.trans hz.1, h2.trans hz.2.1, h3.trans hz.2.2.1, h4.trans hz.2.2.2⟩)
        (fun z => softDeleteGame_deleted now z)
        (fun z hz => softDeleteGame_fix now z hz)
        (fun z hz => softDeleteGame_fix now' z hz)
        u dl
        (fun e1 h1 e2 h2 hid z => by rw [hcoh e1 h1 e2 h2 hid])
        st.games gu g1 hu hd
      have hU2 : overwriteFold (fun (e : GameSync) (x : Game) => x.client_id == some e.id)
          (fun (e : GameSync) (x : Game) => updateGameFields e now' x) u g1 = Except.ok g1 := hpi.1
      have hD2 : overwriteFold (fun (c1 : String) (x : Game) => x.client_id == some c1)
          (fun (_ : String) (x : Game) => softDeleteGame now' x) dl g1 = Except.ok g1 := hpi.2
      refine ⟨?_, by rw [hst1], by rw [hst1], by rw [hst1], by rw [hst1]⟩
      intro s1 hs1
      have hs1g : s1.games = g1 := by rw [hs1, hst1]
      rw [applyGameChanges_noCreates_eq, hs1g, hU2]
      simp only [Bind.bind, Except.bind]
      rw [hD2]
      simp only [Except.map]
      rw [← hs1g]

/-! ## Players table: net-change facts and retry idempotence (C7) -/

theorem updatePlayerFields_client_id (d : GamePlayerSync) (t : Nat) (p : GamePlayer) :
    (updatePlayerFields d t p).client_id = p.client_id := by
  unfold updatePlayerFields
  split <;> rfl

theorem softDeletePlayer_client_id (t : Nat) (p : GamePlayer) :
    (softDeletePlayer t p).client_id = p.client_id := by
  unfold softDeletePlayer
  split <;> rfl

theorem updatePlayerFields_applied (d : GamePlayerSync) (t : Nat) (p : GamePlayer) :
    (updatePlayerFields d t p).name = d.name ∧ (updatePlayerFields d t p).position = d.position
      ∧ (updatePlayerFields d t p).current_total = d.current_total := by
  unfold updatePlayerFields
  by_cases h : p.name = d.name ∧ p.position = d.position ∧ p.current_total = d.current_total
  · rw [if_pos h]
    exact ⟨h.1, h.2.1, h.2.2⟩
  · rw [if_neg h]
    exact ⟨rfl, rfl, rfl⟩

theorem updatePlayerFields_fix (d : GamePlayerSync) (t : Nat) (p : GamePlayer)
    (h : p.name = d.name ∧ p.position = d.position ∧ p.current_total = d.current_total) :
    updatePlayerFields d t p = p := by
  unfold updatePlayerFields
  rw [if_pos h]

theorem softDeletePlayer_deleted (t : Nat) (p : GamePlayer) :
    (softDeletePlayer t p).is_deleted = true := by
  unfold softDeletePlayer
  by_cases h : p.is_deleted = true
  · rw [if_pos h]
    exact h
  · rw [if_neg h]

theorem softDeletePlayer_fix (t : Nat) (p : GamePlayer) (h : p.is_deleted = true) :
    softDeletePlayer t p = p := by
  unfold softDeletePlayer
  rw [if_pos h]

theorem softDeletePlayer_frame (t : Nat) (p : GamePlayer) :
    (softDeletePlayer t p).name = p.name ∧ (softDeletePlayer t p).position = p.position
      ∧ (softDeletePlayer t p).current_total = p.current_total := by
  unfold softDeletePlayer
  split <;> exact ⟨rfl, rfl, rfl⟩

theorem applyPlayerUpdate_step_eq (now : Nat) (d : GamePlayerSync) (st : Store) :
    applyPlayerUpdate now d st
      = (overwriteStep (fun (e : GamePlayerSync) (x : GamePlayer) => x.client_id == some e.id)
          (fun (e : GamePlayerSync) (x : GamePlayer) => updatePlayerFields e now x) d st.players).map
          (fun l => { st with players := l }) := by
  cases hsc : scalarOneOrNone (st.players.filter (fun p => p.client_id == some d.id)) with
  | error e =>
    simp [applyPlayerUpdate, overwriteStep, hsc, Bind.bind, Except.bind, Except.map]
  | ok o =>
    cases o with
    | none =>
      simp only [applyPlayerUpdate, overwriteStep, hsc, Bind.bind, Except.bind, Except.map]
    | some g =>
      simp only [applyPlayerUpdate, overwriteStep, hsc, Bind.bind, Except.bind, Except.map]

theorem applyPlayerDelete_step_eq (now : Nat) (c : String) (st : Store) :
    applyPlayerDelete now c st
      = (overwriteStep (fun (c1 : String) (x : GamePlayer) => x.client_id == some c1)
          (fun (_ : String) (x : GamePlayer) => softDeletePlayer now x) c st.players).map
          (fun l => { st with players := l }) := by
  cases hsc : scalarOneOrNone (st.players.filter (fun p => p.client_id == some c)) with
  | error e =>
    simp [applyPlayerDelete, overwriteStep, hsc, Bind.bind, Except.bind, Except.map]
  | ok o =>
    cases o with
    | none =>
      simp only [applyPlayerDelete, overwriteStep, hsc, Bind.bind, Except.bind, Except.map]
    | some g =>
      simp only [applyPlayerDelete, overwriteStep, hsc, Bind.bind, Except.bind, Except.map]

theorem applyPlayerChanges_noCreates_eq (now : Nat) (u : List GamePlayerSync)
    (dl : List String) (st : Store) :
    applyPlayerChanges now { created := [], updated := u, deleted := dl } st
      = ((overwriteFold (fun (e : GamePlayerSync) (x : GamePlayer) => x.client_id == some e.id)
            (fun (e : GamePlayerSync) (x : GamePlayer) => updatePlayerFields e now x) u st.players) >>=
          overwriteFold (fun (c1 : String) (x : GamePlayer) => x.client_id == some c1)
            (fun (_ : String) (x : GamePlayer) => softDeletePlayer now x) dl).map
          (fun l => { st with players := l }) := by
  have hu := foldlM_store_lift (fun d s => applyPlayerUpdate now d s)
    (fun d l => overwriteStep (fun (e : GamePlayerSync) (x : GamePlayer) => x.client_id == some e.id)
      (fun (e : GamePlayerSync) (x : GamePlayer) => updatePlayerFields e now x) d l)
    (fun s => s.players) (fun s l => { s with players := l })
    (fun s => rfl) (fun s l => rfl) (fun s l l' => rfl)
    (fun d s => applyPlayerUpdate_step_eq now d s) u
  have hd := foldlM_store_lift (fun c s => applyPlayerDelete now c s)
    (fun c l => overwriteStep (fun (c1 : String) (x : GamePlayer) => x.client_id == some c1)
      (fun (_ : String) (x : GamePlayer) => softDeletePlayer now x) c l)
    (fun s => s.players) (fun s l => { s with players := l })
    (fun s => rfl) (fun s l => rfl) (fun s l l' => rfl)
    (fun c s => applyPlayerDelete_step_eq now c s) dl
  show (do
    let st1 ← ([] : List GamePlayerSync).foldlM (fun s d => applyPlayerCreate now d s) st
    let st2 ← u.foldlM (fun s d => applyPlayerUpdate now d s) st1
    dl.foldlM (fun s c => applyPlayerDelete now c s) st2) = _
  simp only [List.foldlM_nil]
  show (u.foldlM (fun s d => applyPlayerUpdate now d s) st) >>= _ = _
  rw [hu st]
  cases h1 : overwriteFold (fun (e : GamePlayerSync) (x : GamePlayer) => x.client_id == some e.id)
      (fun (e : GamePlayerSync) (x : GamePlayer) => updatePlayerFields e now x) u st.players with
  | error e =>
    simp only [overwriteFold] at h1
    rw [h1]
    simp [Except.map, Bind.bind, Except.bind]
  | ok gu =>
    simp only [overwriteFold] at h1
    rw [h1]
    simp only [Except.map, Bind.bind, Except.bind]
    rw [hd { st with players := gu }]
    show (overwriteFold _ _ dl gu).map _ = _
    cases h2 : overwriteFold (fun (c1 : String) (x : GamePlayer) => x.client_id == some c1)
        (fun (_ : String) (x : GamePlayer) => softDeletePlayer now x) dl gu <;>
      simp [h2, Except.map, Bind.bind, Except.bind]

theorem playerPhase_idem (now now' : Nat) (u : List GamePlayerSync)
    (dl : List String) (st st1 : Store)
    (hcoh : ∀ d1 ∈ u, ∀ d2 ∈ u, d1.id = d2.id → d1 = d2)
    (h : applyPlayerChanges now { created := [], updated := u, deleted := dl } st
      = Except.ok st1) :
    (∀ s1 : Store, s1.players = st1.players →
      applyPlayerChanges now' { created := [], updated := u, deleted := dl } s1 = Except.ok s1)
    ∧ st1.games = st.games ∧ st1.rounds = st.rounds ∧ st1.scores = st.scores
    ∧ st1.nextId = st.nextId := by
  rw [applyPlayerChanges_noCreates_eq] at h
  cases hu : overwriteFold (fun (e : GamePlayerSync) (x : GamePlayer) => x.client_id == some e.id)
      (fun (e : GamePlayerSync) (x : GamePlayer) => updatePlayerFields e now x) u st.players with
  | error e =>
    rw [hu] at h
    simp [Bind.bind, Except.bind, Except.map] at h
  | ok gu =>
    rw [hu] at h
    simp only [Bind.bind, Except.bind] at h
    cases hd : overwriteFold (fun (c1 : String) (x : GamePlayer) => x.client_id == some c1)
        (fun (_ : String) (x : GamePlayer) => softDeletePlayer now x) dl gu with
    | error e =>
      rw [hd] at h
      simp [Except.map] at h
    | ok g1 =>
      rw [hd] at h
      simp only [Except.map] at h
      have hst1 : st1 = { st with players := g1 } := by
        have := (Except.ok.injEq ..).mp h
        exact this.symm
      have hpi := pipeline_idem (fun p : GamePlayer => p.client_id)
        (fun d : GamePlayerSync => d.id)
        (fun e x => updatePlayerFields e now x) (fun e x => updatePlayerFields e now' x)
        (softDeletePlayer now) (softDeletePlayer now')
        (fun e z => z.name = e.name ∧ z.position = e.position ∧ z.current_total = e.current_total)
        (fun z => z.is_deleted)
        (fun e x => updatePlayerFields_client_id e now x)
        (fun e x => updatePlayerFields_client_id e now' x)
        (fun x => softDeletePlayer_client_id now x)
        (fun x => softDeletePlayer_client_id now' x)
        (fun e z => updatePlayerFields_applied e now z)
        (fun e z hz => updatePlayerFields_fix e now z hz)
        (fun e z hz => updatePlayerFields_fix e now' z hz)
        (fun e z hz => by
          obtain ⟨h1, h2, h3⟩ := (softDeletePlayer_frame now z)
          exact ⟨h1.trans hz.1, h2.trans hz.2.1, h3.trans hz.2.2⟩)
        (fun z => softDeletePlayer_deleted now z)
        (fun z hz => softDeletePlayer_fix now z hz)
        (fun z hz => softDeletePlayer_fix now' z hz)
        u dl
        (fun e1 h1 e2 h2 hid z => by rw [hcoh e1 h1 e2 h2 hid])
        st.players gu g1 hu hd
      have hU2 : overwriteFold (fun (e : GamePlayerSync) (x : GamePlayer) => x.client_id == some e.id)
          (fun (e : GamePlayerSync) (x : GamePlayer) => updatePlayerFields e now' x) u g1
          = Except.ok g1 := hpi.1
      have hD2 : overwriteFold (fun (c1 : String) (x : GamePlayer) => x.client_id == some c1)
          (fun (_ : String) (x : GamePlayer) => softDeletePlayer now' x) dl g1
          = Except.ok g1 := hpi.2
      refine ⟨?_, by rw [hst1], by rw [hst1], by rw [hst1], by rw [hst1]⟩
      intro s1 hs1
      have hs1g : s1.players = g1 := by rw [hs1, hst1]
      rw [applyPlayerChanges_noCreates_eq, hs1g, hU2]
      simp only [Bind.bind, Except.bind]
      rw [hD2]
      simp only [Except.map]
      rw [← hs1g]

/-! ## Scores table: net-change facts and retry idempotence (C7) -/

theorem updateScoreFields_client_id (d : ScoreSync) (t : Nat) (s : Score) :
    (updateScoreFields d t s).client_id = s.client_id := by
  unfold updateScoreFields
  split <;> rfl

theorem softDeleteScore_client_id (t : Nat) (s : Score) :
    (softDeleteScore t s).client_id = s.client_id := by
  unfold softDeleteScore
  split <;> rfl

theorem updateScoreFields_applied (d : ScoreSync) (t : Nat) (s : Score) :
    (updateScoreFields d t s).raw_score = d.raw_score
      ∧ (updateScoreFields d t s).bonus_applied = d.bonus_applied
      ∧ (updateScoreFields d t s).final_score = d.final_score
      ∧ (updateScoreFields d t s).total_after = d.total_after := by
  unfold updateScoreFields
  by_cases h : s.raw_score = d.raw_score ∧ s.bonus_applied = d.bonus_applied
      ∧ s.final_score = d.final_score ∧ s.total_after = d.total_after
  · rw [if_pos h]
    exact ⟨h.1, h.2.1, h.2.2.1, h.2.2.2⟩
  · rw [if_neg h]
    exact ⟨rfl, rfl, rfl, rfl⟩

theorem updateScoreFields_fix (d : ScoreSync) (t : Nat) (s : Score)
    (h : s.raw_score = d.raw_score ∧ s.bonus_applied = d.bonus_applied
      ∧ s.final_score = d.final_score ∧ s.total_after = d.total_after) :
    updateScoreFields d t s = s := by
  unfold updateScoreFields
  rw [if_pos h]

theorem softDeleteScore_deleted (t : Nat) (s : Score) :
    (softDeleteScore t s).is_deleted = true := by
  unfold softDeleteScore
  by_cases h : s.is_deleted = true
  · rw [if_pos h]
    exact h
  · rw [if_neg h]

theorem softDeleteScore_fix (t : Nat) (s : Score) (h : s.is_deleted = true) :
    softDeleteScore t s = s := by
  unfold softDeleteScore
  rw [if_pos h]

theorem softDeleteScore_frame (t : Nat) (s : Score) :
    (softDeleteScore t s).raw_score = s.raw_score
      ∧ (softDeleteScore t s).bonus_applied = s.bonus_applied
      ∧ (softDeleteScore t s).final_score = s.final_score
      ∧ (softDeleteScore t s).total_after = s.total_after := by
  unfold softDeleteScore
  split <;> exact ⟨rfl, rfl, rfl, rfl⟩

theorem applyScoreUpdate_step_eq (now : Nat) (d : ScoreSync) (st : Store) :
    applyScoreUpdate now d st
      = (overwriteStep (fun (e : ScoreSync) (x : Score) => x.client_id == some e.id)
          (fun (e : ScoreSync) (x : Score) => updateScoreFields e now x) d st.scores).map
          (fun l => { st with scores := l }) := by
  cases hsc : scalarOneOrNone (st.scores.filter (fun s => s.client_id == some d.id)) with
  | error e =>
    simp [applyScoreUpdate, overwriteStep, hsc, Bind.bind, Except.bind, Except.map]
  | ok o =>
    cases o with
    | none =>
      simp only [applyScoreUpdate, overwriteStep, hsc, Bind.bind, Except.bind, Except.map]
    | some g =>
      simp only [applyScoreUpdate, overwriteStep, hsc, Bind.bind, Except.bind, Except.map]

theorem applyScoreDelete_step_eq (now : Nat) (c : String) (st : Store) :
    applyScoreDelete now c st
      = (overwriteStep (fun (c1 : String) (x : Score) => x.client_id == some c1)
          (fun (_ : String) (x : Score) => softDeleteScore now x) c st.scores).map
          (fun l => { st with scores := l }) := by
  cases hsc : scalarOneOrNone (st.scores.filter (fun s => s.client_id == some c)) with
  | error e =>
    simp [applyScoreDelete, overwriteStep, hsc, Bind.bind, Except.bind, Except.map]
  | ok o =>
    cases o with
    | none =>
      simp only [applyScoreDelete, overwriteStep, hsc, Bind.bind, Except.bind, Except.map]
    | some g =>
      simp only [applyScoreDelete, overwriteStep, hsc, Bind.bind, Except.bind, Except.map]

theorem applyScoreChanges_noCreates_eq (now : Nat) (u : List ScoreSync)
    (dl : List String) (st : Store) :
    applyScoreChanges now { created := [], updated := u, deleted := dl } st
      = ((overwriteFold (fun (e : ScoreSync) (x : Score) => x.client_id == some e.id)
            (fun (e : ScoreSync) (x : Score) => updateScoreFields e now x) u st.scores) >>=
          overwriteFold (fun (c1 : String) (x : Score) => x.client_id == some c1)
            (fun (_ : String) (x : Score) => softDeleteScore now x) dl).map
          (fun l => { st with scores := l }) := by
  have hu := foldlM_store_lift (fun d s => applyScoreUpdate now d s)
    (fun d l => overwriteStep (fun (e : ScoreSync) (x : Score) => x.client_id == some e.id)
      (fun (e : ScoreSync) (x : Score) => updateScoreFields e now x) d l)
    (fun s => s.scores) (fun s l => { s with scores := l })
    (fun s => rfl) (fun s l => rfl) (fun s l l' => rfl)
    (fun d s => applyScoreUpdate_step_eq now d s) u
  have hd := foldlM_store_lift (fun c s => applyScoreDelete now c s)
    (fun c l => overwriteStep (fun (c1 : String) (x : Score) => x.client_id == some c1)
      (fun (_ : String) (x : Score) => softDeleteScore now x) c l)
    (fun s => s.scores) (fun s l => { s with scores := l })
    (fun s => rfl) (fun s l => rfl) (fun s l l' => rfl)
    (fun c s => applyScoreDelete_step_eq now c s) dl
  show (do
    let st1 ← ([] : List ScoreSync).foldlM (fun s d => applyScoreCreate now d s) st
    let st2 ← u.foldlM (fun s d => applyScoreUpdate now d s) st1
    dl.foldlM (fun s c => applyScoreDelete now c s) st2) = _
  simp only [List.foldlM_nil]
  show (u.foldlM (fun s d => applyScoreUpdate now d s) st) >>= _ = _
  rw [hu st]
  cases h1 : overwriteFold (fun (e : ScoreSync) (x : Score) => x.client_id == some e.id)
      (fun (e : ScoreSync) (x : Score) => updateScoreFields e now x) u st.scores with
  | error e =>
    simp only [overwriteFold] at h1
    rw [h1]
    simp [Except.map, Bind.bind, Except.bind]
  | ok gu =>
    simp only [overwriteFold] at h1
    rw [h1]
    simp only [Except.map, Bind.bind, Except.bind]
    rw [hd { st with scores := gu }]
    show (overwriteFold _ _ dl gu).map _ = _
    cases h2 : overwriteFold (fun (c1 : String) (x : Score) => x.client_id == some c1)
        (fun (_ : String) (x : Score) => softDeleteScore now x) dl gu <;>
      simp [h2, Except.map, Bind.bind, Except.bind]

theorem scorePhase_idem (now now' : Nat) (u : List ScoreSync)
    (dl : List String) (st st1 : Store)
    (hcoh : ∀ d1 ∈ u, ∀ d2 ∈ u, d1.id = d2.id → d1 = d2)
    (h : applyScoreChanges now { created := [], updated := u, deleted := dl } st
      = Except.ok st1) :
    (∀ s1 : Store, s1.scores = st1.scores →
      applyScoreChanges now' { created := [], updated := u, deleted := dl } s1 = Except.ok s1)
    ∧ st1.games = st.games ∧ st1.players = st.players ∧ st1.rounds = st.rounds
    ∧ st1.nextId = st.nextId := by
  rw [applyScoreChanges_noCreates_eq] at h
  cases hu : overwriteFold (fun (e : ScoreSync) (x : Score) => x.client_id == some e.id)
      (fun (e : ScoreSync) (x : Score) => updateScoreFields e now x) u st.scores with
  | error e =>
    rw [hu] at h
    simp [Bind.bind, Except.bind, Except.map] at h
  | ok gu =>
    rw [hu] at h
    simp only [Bind.bind, Except.bind] at h
    cases hd : overwriteFold (fun (c1 : String) (x : Score) => x.client_id == some c1)
        (fun (_ : String) (x : Score) => softDeleteScore now x) dl gu with
    | error e =>
      rw [hd] at h
      simp [Except.map] at h
    | ok g1 =>
      rw [hd] at h
      simp only [Except.map] at h
      have hst1 : st1 = { st with scores := g1 } := by
        have := (Except.ok.injEq ..).mp h
        exact this.symm
      have hpi := pipeline_idem (fun s : Score => s.client_id) (fun d : ScoreSync => d.id)
        (fun e x => updateScoreFields e now x) (fun e x => updateScoreFields e now' x)
        (softDeleteScore now) (softDeleteScore now')
        (fun e z => z.raw_score = e.raw_score ∧ z.bonus_applied = e.bonus_applied
          ∧ z.final_score = e.final_score ∧ z.total_after = e.total_after)
        (fun z => z.is_deleted)
        (fun e x => updateScoreFields_client_id e now x)
        (fun e x => updateScoreFields_client_id e now' x)
        (fun x => softDeleteScore_client_id now x)
        (fun x => softDeleteScore_client_id now' x)
        (fun e z => updateScoreFields_applied e now z)
        (fun e z hz => updateScoreFields_fix e now z hz)
        (fun e z hz => updateScoreFields_fix e now' z hz)
        (fun e z hz => by
          obtain ⟨h1, h2, h3, h4⟩ := (softDeleteScore_frame now z)
          exact ⟨h1.trans hz.1, h2.trans hz.2.1, h3.trans hz.2.2.1, h4.trans hz.2.2.2⟩)
        (fun z => softDeleteScore_deleted now z)
        (fun z hz => softDeleteScore_fix now z hz)
        (fun z hz => softDeleteScore_fix now' z hz)
        u dl
        (fun e1 h1 e2 h2 hid z => by rw [hcoh e1 h1 e2 h2 hid])
        st.scores gu g1 hu hd
      have hU2 : overwriteFold (fun (e : ScoreSync) (x : Score) => x.client_id == some e.id)
          (fun (e : ScoreSync) (x : Score) => updateScoreFields e now' x) u g1
          = Except.ok g1 := hpi.1
      have hD2 : overwriteFold (fun (c1 : String) (x : Score) => x.client_id == some c1)
          (fun (_ : String) (x : Score) => softDeleteScore now' x) dl g1
          = Except.ok g1 := hpi.2
      refine ⟨?_, by rw [hst1], by rw [hst1], by rw [hst1], by rw [hst1]⟩
      intro s1 hs1
      have hs1g : s1.scores = g1 := by rw [hs1, hst1]
      rw [applyScoreChanges_noCreates_eq, hs1g, hU2]
      simp only [Bind.bind, Except.bind]
      rw [hD2]
      simp only [Except.map]
      rw [← hs1g]

/-! ## Rounds table: net-change facts and retry idempotence (C7) -/

theorem resolveCaller_eqP (st : Store) (c : Option String) :
    resolveCaller st c = resolveCallerP st.players c := rfl

theorem updateRoundFields_client_id (d : RoundSync) (nc : Option Nat) (t : Nat) (r : Round) :
    (updateRoundFields d nc t r).client_id = r.client_id := by
  simp only [updateRoundFields]
  split <;> rfl

theorem updateRoundFields_applied (d : RoundSync) (nc : Option Nat) (t : Nat) (r : Round) :
    (updateRoundFields d nc t r).round_number = d.round_number
      ∧ (updateRoundFields d nc t r).caller_id
        = (match nc with | some cid => some cid | none => r.caller_id) := by
  simp only [updateRoundFields]
  by_cases h : r.round_number = d.round_number
      ∧ r.caller_id = (match nc with | some cid => some cid | none => r.caller_id)
  · rw [if_pos h]
    exact ⟨h.1, h.2⟩
  · rw [if_neg h]
    exact ⟨rfl, rfl⟩

theorem updateRoundFields_fix (d : RoundSync) (nc : Option Nat) (t : Nat) (r : Round)
    (h : r.round_number = d.round_number
      ∧ r.caller_id = (match nc with | some cid => some cid | none => r.caller_id)) :
    updateRoundFields d nc t r = r := by
  simp only [updateRoundFields]
  rw [if_pos h]

theorem softDeleteRound_client_id (t : Nat) (r : Round) :
    (softDeleteRound t r).client_id = r.client_id := by
  unfold softDeleteRound
  split <;> rfl

theorem softDeleteRound_deleted (t : Nat) (r : Round) :
    (softDeleteRound t r).is_deleted = true := by
  unfold softDeleteRound
  by_cases h : r.is_deleted = true
  · rw [if_pos h]
    exact h
  · rw [if_neg h]

theorem softDeleteRound_fix (t : Nat) (r : Round) (h : r.is_deleted = true) :
    softDeleteRound t r = r := by
  unfold softDeleteRound
  rw [if_pos h]

theorem softDeleteRound_frame (t : Nat) (r : Round) :
    (softDeleteRound t r).round_number = r.round_number
      ∧ (softDeleteRound t r).caller_id = r.caller_id := by
  unfold softDeleteRound
  split <;> exact ⟨rfl, rfl⟩

theorem applyRoundUpdate_step_eq (now : Nat) (d : RoundSync) (st : Store) :
    applyRoundUpdate now d st
      = (roundUpdateStepL st.players now d st.rounds).map (fun l => { st with rounds := l }) := by
  have hrc : resolveCaller st d.caller_id = resolveCallerP st.players d.caller_id := rfl
  cases hsc : scalarOneOrNone (st.rounds.filter (fun r => r.client_id == some d.id)) with
  | error e =>
    simp [applyRoundUpdate, roundUpdateStepL, hsc, Bind.bind, Except.bind, Except.map]
  | ok o =>
    cases o with
    | none =>
      simp only [applyRoundUpdate, roundUpdateStepL, hsc, Bind.bind, Except.bind, Except.map]
    | some g =>
      cases hnc : resolveCallerP st.players d.caller_id with
      | error e2 =>
        simp [applyRoundUpdate, roundUpdateStepL, hsc, hrc, hnc, Bind.bind, Except.bind,
          Except.map]
      | ok nc =>
        simp only [applyRoundUpdate, roundUpdateStepL, hsc, hrc, hnc, Bind.bind, Except.bind,
          Except.map]

theorem applyRoundUpdateFold_eq (now : Nat) (u : List RoundSync) :
    ∀ st : Store, u.foldlM (fun s d => applyRoundUpdate now d s) st
      = (roundUpdateFoldL st.players now u st.rounds).map (fun l => { st with rounds := l }) := by
  induction u with
  | nil =>
    intro st
    rfl
  | cons d ds ih =>
    intro st
    rw [List.foldlM_cons]
    show applyRoundUpdate now d st >>= _ = _
    rw [applyRoundUpdate_step_eq]
    have hRHS : roundUpdateFoldL st.players now (d :: ds) st.rounds
        = roundUpdateStepL st.players now d st.rounds >>=
            fun b => ds.foldlM (fun acc e => roundUpdateStepL st.players now e acc) b := by
      simp only [roundUpdateFoldL, List.foldlM_cons]
    rw [hRHS]
    cases hl : roundUpdateStepL st.players now d st.rounds with
    | error e =>
      simp [hl, Except.map, Bind.bind, Except.bind]
    | ok l =>
      simp only [Except.map, Bind.bind, Except.bind]
      rw [ih { st with rounds := l }]
      rfl

theorem applyRoundDelete_step_eq (now : Nat) (c : String) (st : Store) :
    applyRoundDelete now c st
      = (overwriteStep (fun (c1 : String) (x : Round) => x.client_id == some c1)
          (fun (_ : String) (x : Round) => softDeleteRound now x) c st.rounds).map
          (fun l => { st with rounds := l }) := by
  cases hsc : scalarOneOrNone (st.rounds.filter (fun r => r.client_id == some c)) with
  | error e =>
    simp [applyRoundDelete, overwriteStep, hsc, Bind.bind, Except.bind, Except.map]
  | ok o =>
    cases o with
    | none =>
      simp only [applyRoundDelete, overwriteStep, hsc, Bind.bind, Except.bind, Except.map]
    | some g =>
      simp only [applyRoundDelete, overwriteStep, hsc, Bind.bind, Except.bind, Except.map]

theorem applyRoundChanges_noCreates_eq (now : Nat) (u : List RoundSync)
    (dl : List String) (st : Store) :
    applyRoundChanges now { created := [], updated := u, deleted := dl } st
      = ((roundUpdateFoldL st.players now u st.rounds) >>=
          overwriteFold (fun (c1 : String) (x : Round) => x.client_id == some c1)
            (fun (_ : String) (x : Round) => softDeleteRound now x) dl).map
          (fun l => { st with rounds := l }) := by
  have hd := foldlM_store_lift (fun c s => applyRoundDelete now c s)
    (fun c l => overwriteStep (fun (c1 : String) (x : Round) => x.client_id == some c1)
      (fun (_ : String) (x : Round) => softDeleteRound now x) c l)
    (fun s => s.rounds) (fun s l => { s with rounds := l })
    (fun s => rfl) (fun s l => rfl) (fun s l l' => rfl)
    (fun c s => applyRoundDelete_step_eq now c s) dl
  show (do
    let st1 ← ([] : List RoundSync).foldlM (fun s d => applyRoundCreate now d s) st
    let st2 ← u.foldlM (fun s d => applyRoundUpdate now d s) st1
    dl.foldlM (fun s c => applyRoundDelete now c s) st2) = _
  simp only [List.foldlM_nil]
  show (u.foldlM (fun s d => applyRoundUpdate now d s) st) >>= _ = _
  rw [applyRoundUpdateFold_eq now u st]
  cases h1 : roundUpdateFoldL st.players now u st.rounds with
  | error e =>
    simp [Except.map, Bind.bind, Except.bind]
  | ok gu =>
    simp only [Except.map, Bind.bind, Except.bind]
    rw [hd { st with rounds := gu }]
    show (overwriteFold _ _ dl gu).map _ = _
    cases h2 : overwriteFold (fun (c1 : String) (x : Round) => x.client_id == some c1)
        (fun (_ : String) (x : Round) => softDeleteRound now x) dl gu <;>
      simp [h2, Except.map, Bind.bind, Except.bind]

theorem roundUpdateFoldL_ok_strong (players : List GamePlayer) (now : Nat) (u : List RoundSync) :
    ∀ (l l1 : List Round), roundUpdateFoldL players now u l = Except.ok l1 →
    overwriteFold (fun (e : RoundSync) (r : Round) => r.client_id == some e.id)
        (fun (e : RoundSync) (r : Round) => updateRoundFields e (roundCallerChoice players e) now r)
        u l = Except.ok l1
    ∧ ∀ e ∈ u, l.filter (fun r => r.client_id == some e.id) ≠ [] →
        ∃ nc, resolveCallerP players e.caller_id = Except.ok nc := by
  induction u with
  | nil =>
    intro l l1 h
    exact ⟨h, fun e he => absurd he (List.not_mem_nil e)⟩
  | cons d ds ih =>
    intro l l1 h
    simp only [roundUpdateFoldL, List.foldlM_cons] at h
    cases hstep : roundUpdateStepL players now d l with
    | error e0 =>
      rw [hstep] at h
      simp [Bind.bind, Except.bind] at h
    | ok l2 =>
      rw [hstep] at h
      simp only [Bind.bind, Except.bind] at h
      have hih := ih l2 l1 h
      cases hfil : l.filter (fun r => r.client_id == some d.id) with
      | nil =>
        have hsk : roundUpdateStepL players now d l = Except.ok l := by
          simp [roundUpdateStepL, hfil, scalarOneOrNone, Bind.bind, Except.bind]
        rw [hsk] at hstep
        have hl2 : l2 = l := ((Except.ok.injEq ..).mp hstep).symm
        subst hl2
        refine ⟨?_, ?_⟩
        · simp only [overwriteFold, List.foldlM_cons]
          have hsk2 : overwriteStep (fun (e : RoundSync) (r : Round) => r.client_id == some e.id)
              (fun (e : RoundSync) (r : Round) =>
                updateRoundFields e (roundCallerChoice players e) now r) d l2 = Except.ok l2 := by
            simp [overwriteStep, hfil, scalarOneOrNone, Bind.bind, Except.bind]
          rw [hsk2]
          simp only [Bind.bind, Except.bind]
          exact hih.1
        · intro e he hne
          rcases List.mem_cons.mp he with heq | hme
          · rw [heq] at hne
            exact absurd hfil hne
          · exact hih.2 e hme hne
      | cons a t =>
        cases t with
        | nil =>
          cases hrc : resolveCallerP players d.caller_id with
          | error e0 =>
            have hbad : roundUpdateStepL players now d l = Except.error e0 := by
              simp [roundUpdateStepL, hfil, hrc, scalarOneOrNone, Bind.bind, Except.bind]
            rw [hbad] at hstep
            simp at hstep
          | ok nc =>
            have hrcc : roundCallerChoice players d = nc := by
              simp [roundCallerChoice, hrc]
            have hsv : roundUpdateStepL players now d l
                = Except.ok (l.map fun r =>
                    if r.client_id == some d.id then updateRoundFields d nc now r else r) := by
              simp [roundUpdateStepL, hfil, hrc, scalarOneOrNone, Bind.bind, Except.bind]
            rw [hsv] at hstep
            have hl2 : l2 = l.map (fun r =>
                if r.client_id == some d.id then updateRoundFields d nc now r else r) :=
              ((Except.ok.injEq ..).mp hstep).symm
            have hq : ∀ (e : RoundSync) (x : Round),
                (((if x.client_id == some d.id then updateRoundFields d nc now x
                    else x)).client_id == some e.id) = (x.client_id == some e.id) := by
              intro e x
              by_cases hx : (x.client_id == some d.id) = true
              · rw [if_pos hx, updateRoundFields_client_id]
              · rw [if_neg hx]
            refine ⟨?_, ?_⟩
            · simp only [overwriteFold, List.foldlM_cons]
              have hsv2 : overwriteStep
                  (fun (e : RoundSync) (r : Round) => r.client_id == some e.id)
                  (fun (e : RoundSync) (r : Round) =>
                    updateRoundFields e (roundCallerChoice players e) now r) d l
                  = Except.ok l2 := by
                rw [hl2]
                simp [overwriteStep, hfil, scalarOneOrNone, Bind.bind, Except.bind, hrcc]
              rw [hsv2]
              simp only [Bind.bind, Except.bind]
              exact hih.1
            · intro e he hne
              rcases List.mem_cons.mp he with heq | hme
              · exact ⟨nc, heq ▸ hrc⟩
              · apply hih.2 e hme
                rw [hl2]
                rw [filter_map_invariant (fun r : Round => r.client_id == some e.id)
                  (fun r => if r.client_id == some d.id then updateRoundFields d nc now r else r)
                  (hq e) l]
                intro hmapnil
                apply hne
                cases hfe : l.filter (fun r => r.client_id == some e.id) with
                | nil => rfl
                | cons x xs =>
                  rw [hfe] at hmapnil
                  simp at hmapnil
        | cons b t2 =>
          have hbad : roundUpdateStepL players now d l
              = Except.error "Multiple rows were found when exactly one or none was required" := by
            simp [roundUpdateStepL, hfil, scalarOneOrNone, Bind.bind, Except.bind]
          rw [hbad] at hstep
          simp at hstep

theorem roundUpdateFoldL_of_resolve (players : List GamePlayer) (now : Nat)
    (u : List RoundSync) :
    ∀ l : List Round,
    (∀ e ∈ u, l.filter (fun r => r.client_id == some e.id) ≠ [] →
        ∃ nc, resolveCallerP players e.caller_id = Except.ok nc) →
    roundUpdateFoldL players now u l
      = overwriteFold (fun (e : RoundSync) (r : Round) => r.client_id == some e.id)
          (fun (e : RoundSync) (r : Round) =>
            updateRoundFields e (roundCallerChoice players e) now r) u l := by
  induction u with
  | nil =>
    intro l _
    rfl
  | cons d ds ih =>
    intro l hres
    simp only [roundUpdateFoldL, overwriteFold, List.foldlM_cons]
    cases hfil : l.filter (fun r => r.client_id == some d.id) with
    | nil =>
      have h1 : roundUpdateStepL players now d l = Except.ok l := by
        simp [roundUpdateStepL, hfil, scalarOneOrNone, Bind.bind, Except.bind]
      have h2 : overwriteStep (fun (e : RoundSync) (r : Round) => r.client_id == some e.id)
          (fun (e : RoundSync) (r : Round) =>
            updateRoundFields e (roundCallerChoice players e) now r) d l = Except.ok l := by
        simp [overwriteStep, hfil, scalarOneOrNone, Bind.bind, Except.bind]
      rw [h1, h2]
      simp only [Bind.bind, Except.bind]
      exact ih l (fun e he hne => hres e (List.mem_cons_of_mem d he) hne)
    | cons a t =>
      cases t with
      | nil =>
        obtain ⟨nc, hrc⟩ := hres d (List.mem_cons_self d ds) (by rw [hfil]; simp)
        have hrcc : roundCallerChoice players d = nc := by
          simp [roundCallerChoice, hrc]
        have hq : ∀ (e : RoundSync) (x : Round),
            (((if x.client_id == some d.id then updateRoundFields d nc now x
                else x)).client_id == some e.id) = (x.client_id == some e.id) := by
          intro e x
          by_cases hx : (x.client_id == some d.id) = true
          · rw [if_pos hx, updateRoundFields_client_id]
          · rw [if_neg hx]
        have h1 : roundUpdateStepL players now d l
            = Except.ok (l.map fun r =>
                if r.client_id == some d.id then updateRoundFields d nc now r else r) := by
          simp [roundUpdateStepL, hfil, hrc, scalarOneOrNone, Bind.bind, Except.bind]
        have h2 : overwriteStep (fun (e : RoundSync) (r : Round) => r.client_id == some e.id)
            (fun (e : RoundSync) (r : Round) =>
              updateRoundFields e (roundCallerChoice players e) now r) d l
            = Except.ok (l.map fun r =>
                if r.client_id == some d.id then updateRoundFields d nc now r else r) := by
          simp [overwriteStep, hfil, scalarOneOrNone, Bind.bind, Except.bind, hrcc]
        rw [h1, h2]
        simp only [Bind.bind, Except.bind]
        apply ih
        intro e he hne
        apply hres e (List.mem_cons_of_mem d he)
        intro hnil
        apply hne
        rw [filter_map_invariant (fun r : Round => r.client_id == some e.id)
          (fun r => if r.client_id == some d.id then updateRoundFields d nc now r else r)
          (hq e) l, hnil]
        rfl
      | cons b t2 =>
        have h1 : roundUpdateStepL players now d l
            = Except.error "Multiple rows were found when exactly one or none was required" := by
          simp [roundUpdateStepL, hfil, scalarOneOrNone, Bind.bind, Except.bind]
        have h2 : overwriteStep (fun (e : RoundSync) (r : Round) => r.client_id == some e.id)
            (fun (e : RoundSync) (r : Round) =>
              updateRoundFields e (roundCallerChoice players e) now r) d l
            = Except.error "Multiple rows were found when exactly one or none was required" := by
          simp [overwriteStep, hfil, scalarOneOrNone, Bind.bind, Except.bind]
        rw [h1, h2]
        simp [Bind.bind, Except.bind]

theorem roundPhase_idem (now now' : Nat) (u : List RoundSync)
    (dl : List String) (st st1 : Store)
    (hcoh : ∀ d1 ∈ u, ∀ d2 ∈ u, d1.id = d2.id → d1 = d2)
    (h : applyRoundChanges now { created := [], updated := u, deleted := dl } st
      = Except.ok st1) :
    (∀ s1 : Store, s1.rounds = st1.rounds → s1.players = st.players →
      applyRoundChanges now' { created := [], updated := u, deleted := dl } s1 = Except.ok s1)
    ∧ st1.games = st.games ∧ st1.players = st.players ∧ st1.scores = st.scores
    ∧ st1.nextId = st.nextId := by
  rw [applyRoundChanges_noCreates_eq] at h
  cases hu : roundUpdateFoldL st.players now u st.rounds with
  | error e =>
    rw [hu] at h
    simp [Bind.bind, Except.bind, Except.map] at h
  | ok lu =>
    rw [hu] at h
    simp only [Bind.bind, Except.bind] at h
    cases hd : overwriteFold (fun (c1 : String) (x : Round) => x.client_id == some c1)
        (fun (_ : String) (x : Round) => softDeleteRound now x) dl lu with
    | error e =>
      rw [hd] at h
      simp [Except.map] at h
    | ok l1 =>
      rw [hd] at h
      simp only [Except.map] at h
      have hst1 : st1 = { st with rounds := l1 } := by
        have := (Except.ok.injEq ..).mp h
        exact this.symm
      obtain ⟨hOF, hres⟩ := roundUpdateFoldL_ok_strong st.players now u st.rounds lu hu
      have hpi := pipeline_idem (fun r : Round => r.client_id) (fun d : RoundSync => d.id)
        (fun e x => updateRoundFields e (roundCallerChoice st.players e) now x)
        (fun e x => updateRoundFields e (roundCallerChoice st.players e) now' x)
        (softDeleteRound now) (softDeleteRound now')
        (fun e z => z.round_number = e.round_number
          ∧ z.caller_id = (match roundCallerChoice st.players e with
              | some cid => some cid | none => z.caller_id))
        (fun z => z.is_deleted)
        (fun e x => updateRoundFields_client_id e (roundCallerChoice st.players e) now x)
        (fun e x => updateRoundFields_client_id e (roundCallerChoice st.players e) now' x)
        (fun x => softDeleteRound_client_id now x)
        (fun x => softDeleteRound_client_id now' x)
        (fun e z => by
          refine ⟨(updateRoundFields_applied e (roundCallerChoice st.players e) now z).1, ?_⟩
          show (updateRoundFields e (roundCallerChoice st.players e) now z).caller_id
            = (match roundCallerChoice st.players e with
                | some cid => some cid
                | none => (updateRoundFields e (roundCallerChoice st.players e) now z).caller_id)
          have ha2 := (updateRoundFields_applied e (roundCallerChoice st.players e) now z).2
          cases hc : roundCallerChoice st.players e with
          | none => rfl
          | some cid =>
            rw [hc] at ha2
            exact ha2)
        (fun e z hz => updateRoundFields_fix e (roundCallerChoice st.players e) now z hz)
        (fun e z hz => updateRoundFields_fix e (roundCallerChoice st.players e) now' z hz)
        (fun e z hz => by
          refine ⟨(softDeleteRound_frame now z).1.trans hz.1, ?_⟩
          show (softDeleteRound now z).caller_id
            = (match roundCallerChoice st.players e with
                | some cid => some cid
                | none => (softDeleteRound now z).caller_id)
          have hz2 : z.caller_id = (match roundCallerChoice st.players e with
              | some cid => some cid | none => z.caller_id) := hz.2
          cases hc : roundCallerChoice st.players e with
          | none => rfl
          | some cid =>
            rw [hc] at hz2
            exact (softDeleteRound_frame now z).2.trans hz2)
        (fun z => softDeleteRound_deleted now z)
        (fun z hz => softDeleteRound_fix now z hz)
        (fun z hz => softDeleteRound_fix now' z hz)
        u dl
        (fun e1 h1 e2 h2 hid z => by rw [hcoh e1 h1 e2 h2 hid])
        st.rounds lu l1 hOF hd
      have hU2 : overwriteFold (fun (e : RoundSync) (r : Round) => r.client_id == some e.id)
          (fun (e : RoundSync) (r : Round) =>
            updateRoundFields e (roundCallerChoice st.players e) now' r) u l1
          = Except.ok l1 := hpi.1
      have hD2 : overwriteFold (fun (c1 : String) (x : Round) => x.client_id == some c1)
          (fun (_ : String) (x : Round) => softDeleteRound now' x) dl l1
          = Except.ok l1 := hpi.2
      have hpresU : ∀ (e e' : RoundSync) (x : Round),
          ((updateRoundFields e' (roundCallerChoice st.players e') now x).client_id
            == some e.id) = (x.client_id == some e.id) := by
        intro e e' x
        rw [updateRoundFields_client_id]
      have hpresD : ∀ (c c' : String) (x : Round),
          ((softDeleteRound now x).client_id == some c) = (x.client_id == some c) := by
        intro c c' x
        rw [softDeleteRound_client_id]
      have shapeU : lu = st.rounds.map (overwriteChain
          (fun (e : RoundSync) (r : Round) => r.client_id == some e.id)
          (fun (e : RoundSync) (r : Round) =>
            updateRoundFields e (roundCallerChoice st.players e) now r) u) :=
        overwriteFold_ok_shape _ _ hpresU u st.rounds lu hOF
      have shapeD : l1 = lu.map (overwriteChain
          (fun (c1 : String) (x : Round) => x.client_id == some c1)
          (fun (_ : String) (x : Round) => softDeleteRound now x) dl) :=
        overwriteFold_ok_shape _ _ hpresD dl lu l1 hd
      have hkeyChainU : ∀ x : Round, (overwriteChain
          (fun (e : RoundSync) (r : Round) => r.client_id == some e.id)
          (fun (e : RoundSync) (r : Round) =>
            updateRoundFields e (roundCallerChoice st.players e) now r) u x).client_id
          = x.client_id := fun x =>
        overwriteChain_preserves _ _ (fun z => z.client_id = x.client_id) u x
          (fun e y hy => by
            show (updateRoundFields e (roundCallerChoice st.players e) now y).client_id
              = x.client_id
            rw [updateRoundFields_client_id]
            exact hy) rfl
      have hkeyChainD : ∀ x : Round, (overwriteChain
          (fun (c1 : String) (x : Round) => x.client_id == some c1)
          (fun (_ : String) (x : Round) => softDeleteRound now x) dl x).client_id
          = x.client_id := fun x =>
        overwriteChain_preserves _ _ (fun z => z.client_id = x.client_id) dl x
          (fun c y hy => by
            show (softDeleteRound now y).client_id = x.client_id
            rw [softDeleteRound_client_id]
            exact hy) rfl
      have hres1 : ∀ e ∈ u, l1.filter (fun r => r.client_id == some e.id) ≠ [] →
          ∃ nc, resolveCallerP st.players e.caller_id = Except.ok nc := by
        intro e he hne
        apply hres e he
        intro hnil
        apply hne
        rw [shapeD]
        rw [filter_map_invariant (fun r : Round => r.client_id == some e.id) _
          (fun x => by simp only [hkeyChainD]) lu]
        rw [shapeU]
        rw [filter_map_invariant (fun r : Round => r.client_id == some e.id) _
          (fun x => by simp only [hkeyChainU]) st.rounds]
        rw [hnil]
        rfl
      refine ⟨?_, by rw [hst1], by rw [hst1], by rw [hst1], by rw [hst1]⟩
      intro s1 hs1r hs1p
      have hs1g : s1.rounds = l1 := by rw [hs1r, hst1]
      rw [applyRoundChanges_noCreates_eq, hs1g, hs1p]
      rw [roundUpdateFoldL_of_resolve st.players now' u l1 hres1]
      rw [hU2]
      simp only [Bind.bind, Except.bind]
      rw [hD2]
      simp only [Except.map]
      rw [← hs1g, ← hs1p]

/-! ## Whole-transaction retry idempotence (C7) -/

theorem applyChanges_idem (dev dev' : String) (now now' : Nat) (ch : SyncChanges)
    (st st1 : Store)
    (hg0 : ch.games.created = []) (hp0 : ch.game_players.created = [])
    (hr0 : ch.rounds.created = []) (hs0 : ch.scores.created = [])
    (hcg : ∀ d1 ∈ ch.games.updated, ∀ d2 ∈ ch.games.updated, d1.id = d2.id → d1 = d2)
    (hcp : ∀ d1 ∈ ch.game_players.updated, ∀ d2 ∈ ch.game_players.updated,
      d1.id = d2.id → d1 = d2)
    (hcr : ∀ d1 ∈ ch.rounds.updated, ∀ d2 ∈ ch.rounds.updated, d1.id = d2.id → d1 = d2)
    (hcs : ∀ d1 ∈ ch.scores.updated, ∀ d2 ∈ ch.scores.updated, d1.id = d2.id → d1 = d2)
    (h : applyChanges dev now ch st = Except.ok st1) :
    applyChanges dev' now' ch st1 = Except.ok st1 := by
  have hgch : ch.games = { created := ([] : List GameSync), updated := ch.games.updated, deleted := ch.games.deleted } := by rw [← hg0]
  have hpch : ch.game_players = { created := ([] : List GamePlayerSync), updated := ch.game_players.updated, deleted := ch.game_players.deleted } := by rw [← hp0]
  have hrch : ch.rounds = { created := ([] : List RoundSync), updated := ch.rounds.updated, deleted := ch.rounds.deleted } := by rw [← hr0]
  have hsch : ch.scores = { created := ([] : List ScoreSync), updated := ch.scores.updated, deleted := ch.scores.deleted } := by rw [← hs0]
  simp only [applyChanges] at h
  cases hG : applyGameChanges dev now ch.games st with
  | error e =>
    rw [hG] at h
    simp [Bind.bind, Except.bind] at h
  | ok sA =>
    rw [hG] at h
    simp only [Bind.bind, Except.bind] at h
    cases hP : applyPlayerChanges now ch.game_players sA with
    | error e =>
      rw [hP] at h
      simp [Bind.bind, Except.bind] at h
    | ok sB =>
      rw [hP] at h
      simp only [Bind.bind, Except.bind] at h
      cases hR : applyRoundChanges now ch.rounds sB with
      | error e =>
        rw [hR] at h
        simp [Bind.bind, Except.bind] at h
      | ok sC =>
        rw [hR] at h
        simp only [Bind.bind, Except.bind] at h
        rw [hgch] at hG
        rw [hpch] at hP
        rw [hrch] at hR
        rw [hsch] at h
        obtain ⟨GI, hAp, hAr, hAs, hAn⟩ := gamePhase_idem dev dev' now now'
          ch.games.updated ch.games.deleted st sA hcg hG
        obtain ⟨PI, hBg, hBr, hBs, hBn⟩ := playerPhase_idem now now'
          ch.game_players.updated ch.game_players.deleted sA sB hcp hP
        obtain ⟨RI, hCg, hCp, hCs, hCn⟩ := roundPhase_idem now now'
          ch.rounds.updated ch.rounds.deleted sB sC hcr hR
        obtain ⟨SI, hDg, hDp, hDr, hDn⟩ := scorePhase_idem now now'
          ch.scores.updated ch.scores.deleted sC st1 hcs h
        have e1 : applyGameChanges dev' now' ch.games st1 = Except.ok st1 := by
          rw [hgch]
          exact GI st1 (by rw [hDg, hCg, hBg])
        have e2 : applyPlayerChanges now' ch.game_players st1 = Except.ok st1 := by
          rw [hpch]
          exact PI st1 (by rw [hDp, hCp])
        have e3 : applyRoundChanges now' ch.rounds st1 = Except.ok st1 := by
          rw [hrch]
          exact RI st1 (by rw [hDr]) (by rw [hDp, hCp])
        have e4 : applyScoreChanges now' ch.scores st1 = Except.ok st1 := by
          rw [hsch]
          exact SI st1 rfl
        show applyGameChanges dev' now' ch.games st1 >>= _ = _
        rw [e1]
        simp only [Bind.bind, Except.bind]
        show applyPlayerChanges now' ch.game_players st1 >>= _ = _
        rw [e2]
        simp only [Bind.bind, Except.bind]
        show applyRoundChanges now' ch.rounds st1 >>= _ = _
        rw [e3]
        simp only [Bind.bind, Except.bind]
        exact e4

/-- C7: an accepted push whose batch holds only `updated` and `deleted`
entries (no `created` entries), with no two `updated` entries of a table
carrying the same client identity but different payloads, is idempotent:
retrying the whole batch — at any later server time, by any device,
against any watermark — leaves the committed store unchanged, because a
same-value overwrite emits no UPDATE and so never re-bumps
`last_modified`. A retried `created` entry, by contrast, inserts a
duplicate row (see the counterexample). -/
theorem push_retry_idempotence (st st1 : Store) (dev dev' : String)
    (now now' last_pulled_at last_pulled_at' : Nat) (ch : SyncChanges)
    (hg0 : ch.games.created = []) (hp0 : ch.game_players.created = [])
    (hr0 : ch.rounds.created = []) (hs0 : ch.scores.created = [])
    (hcg : ∀ d1 ∈ ch.games.updated, ∀ d2 ∈ ch.games.updated, d1.id = d2.id → d1 = d2)
    (hcp : ∀ d1 ∈ ch.game_players.updated, ∀ d2 ∈ ch.game_players.updated,
      d1.id = d2.id → d1 = d2)
    (hcr : ∀ d1 ∈ ch.rounds.updated, ∀ d2 ∈ ch.rounds.updated, d1.id = d2.id → d1 = d2)
    (hcs : ∀ d1 ∈ ch.scores.updated, ∀ d2 ∈ ch.scores.updated, d1.id = d2.id → d1 = d2)
    (h : push st dev now ch last_pulled_at = (st1, true, [])) :
    (push st1 dev' now' ch last_pulled_at').1 = st1 := by
  by_cases hcf : checkConflicts st dev last_pulled_at = true
  · unfold push at h
    rw [if_pos hcf] at h
    simp at h
  · unfold push at h
    rw [if_neg hcf] at h
    cases hA : applyChanges dev now ch st with
    | error e =>
      rw [hA] at h
      simp at h
    | ok st' =>
      rw [hA] at h
      simp only [Prod.mk.injEq] at h
      have hA1 : applyChanges dev now ch st = Except.ok st1 := by rw [hA, h.1]
      have hA2 := applyChanges_idem dev dev' now now' ch st st1
        hg0 hp0 hr0 hs0 hcg hcp hcr hcs hA1
      by_cases hcf2 : checkConflicts st1 dev' last_pulled_at' = true
      · simp [push, hcf2]
      · simp [push, hcf2, hA2]

/-- The retried batch leaves `fullStore`'s committed successor untouched:
updates and deletes across all four tables, re-pushed at a later server
time against a later watermark. -/
theorem push_retry_idempotence_witness :
    (push (push fullStore "B" 11 retryBatch 10).1 "B" 12 retryBatch 20).1
      = (push fullStore "B" 11 retryBatch 10).1 :=
  push_retry_idempotence fullStore (push fullStore "B" 11 retryBatch 10).1 "B" "B" 11 12 10 20
    retryBatch rfl rfl rfl rfl
    (by decide) (by decide) (by decide) (by decide)
    (by decide)

end Lookyswappy
